import Mathlib

/-!
Verification development for the ToolHub tool gateway.

The definitions below are a shallow embedding of the Go sources:

* `PolicyModel` embeds `internal/core/policy.go` (allowlists, path policy,
  canonicalization via `filepath.Clean`);
* `BatchModel` embeds `DeriveBatchStatus`;
* `ErrMapModel` embeds `internal/core/error_map.go` and
  `internal/core/idempotency.go`;
* `ApprovalModel` embeds the approval rows of `internal/db/db.go` and the
  resolve path of `internal/core/audit.go` / `internal/http/server.go`;
* `ArtifactModel` embeds `internal/core/artifact.go` and the byte-level part
  of `internal/core/audit.go` (`Record`), with explicit failure injection;
* `IssueModel` embeds the `github.issues.create` handler together with
  `MakeIssueIdempotencyKey`, `ReplayResponse` and
  `ReplayResponseWithRequestCheck` at the level of structured values;
* `GateModel` and `RepairModel` embed the approval-gated handlers
  `handleCodeBranchPR` and `handleCodeRepairLoop`, with external
  collaborators (git runner, QA runner, code forge) supplied as oracles.

Go's `strings`/`path/filepath` helpers are re-implemented over `String.data`
(`List Char`) so that every definition evaluates inside the kernel.  SHA-256
and JSON serialization are abstract parameters (`hash`, `marshal`): the
verified properties relate occurrences of the same function to each other and
never depend on the digest or encoding internals.
-/

/-! ## Go string primitives (`strings` package), char-list based -/

/-- `strings.TrimSpace` (ASCII whitespace; the Go original also trims the
rarer Unicode space classes, which never occur in the inputs modelled here). -/
def goTrimSpace (s : String) : String :=
  ⟨((s.data.dropWhile Char.isWhitespace).reverse.dropWhile Char.isWhitespace).reverse⟩

/-- `strings.Split(s, sep)` for a one-character separator (the sources only
split on `","` and `"/"`). `Split("", sep) = [""]` as in Go. -/
def goSplitChar (sep : Char) (s : String) : List String :=
  (splitAux s.data).map (⟨·⟩)
where
  splitAux : List Char → List (List Char)
    | [] => [[]]
    | c :: cs =>
      if c = sep then [] :: splitAux cs
      else match splitAux cs with
        | [] => [[c]]
        | g :: gs => (c :: g) :: gs

/-- `strings.HasPrefix`. -/
def goHasPfx (s pre : String) : Bool := pre.data.isPrefixOf s.data

/-- `strings.HasSuffix`. -/
def goHasSfx (s suf : String) : Bool := suf.data.isSuffixOf s.data

/-- `strings.TrimPrefix` (removes the leading occurrence once, if present). -/
def goTrimPfx (s pre : String) : String :=
  if goHasPfx s pre then ⟨s.data.drop pre.data.length⟩ else s

/-- `strings.Contains`. -/
def goContains (s sub : String) : Bool := containsAux sub.data s.data
where
  containsAux (sub : List Char) : List Char → Bool
    | [] => sub.isPrefixOf []
    | c :: t => if sub.isPrefixOf (c :: t) then true else containsAux sub t

/-- ASCII lower-casing of one character (`unicode.ToLower` restricted to the
ASCII error messages that flow through the error mapper). -/
def lowerChar (c : Char) : Char :=
  if 65 ≤ c.toNat ∧ c.toNat ≤ 90 then Char.ofNat (c.toNat + 32) else c

/-- `strings.ToLower` (ASCII). -/
def goToLower (s : String) : String := ⟨s.data.map lowerChar⟩

/-- Lexicographic `≤` on code points, the order used by `sort.Strings`
(byte order and code-point order agree on the ASCII labels involved). -/
def charListLe : List Char → List Char → Bool
  | [], _ => true
  | _ :: _, [] => false
  | a :: as, b :: bs =>
    if a.toNat < b.toNat then true
    else if b.toNat < a.toNat then false
    else charListLe as bs

def strLe (a b : String) : Bool := charListLe a.data b.data

/-- Insertion used by `sortStrings`. -/
def insertStr (x : String) : List String → List String
  | [] => [x]
  | y :: ys => if strLe x y then x :: y :: ys else y :: insertStr x ys

/-- `sort.Strings` (ascending, stable enough for the deterministic key). -/
def sortStrings : List String → List String
  | [] => []
  | x :: xs => insertStr x (sortStrings xs)

/-- Byte strings (artifact blobs, serialized JSON). -/
abbrev Bytes := List Nat

namespace PolicyModel

/-! ## `internal/core/policy.go` -/

inductive PolicyViolationCode where
  | pathEmpty
  | pathTraversal
  | pathForbidden
deriving DecidableEq, Repr

/-- `PolicyViolation{Code, Path, Reason}`. -/
structure PolicyViolation where
  code : PolicyViolationCode
  path : String
  reason : String
deriving DecidableEq, Repr

/-- `Policy` (allowlists as membership lists; Go uses `map[string]bool`). -/
structure Policy where
  allowedRepos : List String
  allowedTools : List String
  forbiddenPathPrefixes : List String
  approvalPathPrefixes : List String
deriving Repr

def builtinForbiddenPrefixes : List String := [".github/", ".git/", "secrets/", ".env"]

/-- `parseCSV`: split on `,`, trim, drop empties (map keys in Go). -/
def parseCSV (s : String) : List String :=
  ((goSplitChar ',' s).map goTrimSpace).filter (· ≠ "")

/-- `normalizePath`: trim, then strip one leading `./` and one leading `/`. -/
def normalizePath (s : String) : String :=
  goTrimPfx (goTrimPfx (goTrimSpace s) "./") "/"

/-- `parsePrefixesCSV`. -/
def parsePrefixesCSV (s : String) : List String :=
  ((goSplitChar ',' s).map normalizePath).filter (· ≠ "")

/-- The seen-set loop inside `mergeUniquePrefixes` (a list stands in for the
`map[string]struct{}`). -/
def dedupAux : List String → List String → List String
  | [], _ => []
  | x :: xs, seen => if seen.contains x then dedupAux xs seen else x :: dedupAux xs (x :: seen)

/-- `mergeUniquePrefixes(base, extra)`: order-preserving dedup of `base ++ extra`. -/
def mergeUniquePrefixes (base extra : List String) : List String :=
  dedupAux (base ++ extra) []

/-- `NewPolicy` (path prefixes initialised to the built-ins). -/
def NewPolicy (repoCSV toolCSV : String) : Policy :=
  { allowedRepos := parseCSV repoCSV
    allowedTools := parseCSV toolCSV
    forbiddenPathPrefixes := builtinForbiddenPrefixes
    approvalPathPrefixes := [] }

/-- `SetPathPolicy`: built-ins are always merged back in. -/
def SetPathPolicy (p : Policy) (forbiddenCSV approvalCSV : String) : Policy :=
  { p with
    forbiddenPathPrefixes := mergeUniquePrefixes builtinForbiddenPrefixes (parsePrefixesCSV forbiddenCSV)
    approvalPathPrefixes := parsePrefixesCSV approvalCSV }

/-- `CheckTool`: `some errMsg` plays the non-nil `error`. -/
def CheckTool (p : Policy) (toolName : String) : Option String :=
  if p.allowedTools.isEmpty then some "no tools allowed (TOOL_ALLOWLIST is empty)"
  else if p.allowedTools.contains toolName then none
  else some ("tool \"" ++ toolName ++ "\" not in allowlist")

/-- `matchesForbiddenPrefix` (suffix-abbreviated name). -/
def matchesForbiddenPfx (path pre : String) : Bool :=
  if goHasSfx pre "/" then goHasPfx path pre
  else if goHasPfx pre "." then path == pre || goHasPfx path (pre ++ ".")
  else goHasPfx path pre

/-- One step of `filepath.Clean`'s element loop (Unix rules): `..` pops the
last element, is kept when the (relative) output already ends in `..`, and is
dropped at the root of a rooted path. -/
def cleanComp (rooted : Bool) (acc : List String) (c : String) : List String :=
  if c = ".." then
    match acc.getLast? with
    | some l => if l = ".." then acc ++ [".."] else acc.dropLast
    | none => if rooted then [] else [".."]
  else acc ++ [c]

/-- `filepath.Clean` (Unix): drop empty and `.` elements, resolve `..`
lexically, restore the leading `/`, return `.` for an empty relative result. -/
def cleanPath (s : String) : String :=
  if s = "" then "."
  else
    let rooted := goHasPfx s "/"
    let comps := (goSplitChar '/' s).filter (fun c => c ≠ "" && c ≠ ".")
    let out := comps.foldl (cleanComp rooted) []
    if rooted then "/" ++ String.intercalate "/" out
    else if out.isEmpty then "." else String.intercalate "/" out

/-- `canonicalizePath`: trim, `filepath.Clean`, reject `..`-escapes, strip a
leading `/` and `./`, reject a result equal to `.`. -/
def canonicalizePath (raw : String) : Except String String :=
  let s := goTrimSpace raw
  if s = "" then .error "empty path"
  else
    let cleaned := cleanPath s
    if cleaned = ".." || goHasPfx cleaned "../" || goHasPfx cleaned "..\\" then
      .error "path traversal detected"
    else
      let c1 := goTrimPfx cleaned "/"
      let c2 := goTrimPfx c1 "./"
      if c2 = "." then .error "path resolves to root" else .ok c2

/-- `CheckPaths`: first violation wins; `none` is the nil error. -/
def CheckPaths (p : Policy) : List String → Option PolicyViolation
  | [] => none
  | raw :: rest =>
    let trimmed := goTrimSpace raw
    if trimmed = "" then some ⟨.pathEmpty, raw, "path is empty"⟩
    else
      match canonicalizePath trimmed with
      | .error e => some ⟨.pathTraversal, raw, e⟩
      | .ok path =>
        match p.forbiddenPathPrefixes.find? (fun pre => matchesForbiddenPfx path pre) with
        | some pre => some ⟨.pathForbidden, raw, "matched forbidden prefix \"" ++ pre ++ "\""⟩
        | none => CheckPaths p rest

end PolicyModel

example : PolicyModel.canonicalizePath "/" = .ok "" := rfl
example : PolicyModel.canonicalizePath "/.." = .ok "" := rfl
example : PolicyModel.canonicalizePath "." = .error "path resolves to root" := rfl
example : PolicyModel.canonicalizePath ".." = .error "path traversal detected" := rfl
example : PolicyModel.canonicalizePath "../a" = .error "path traversal detected" := rfl
example : PolicyModel.canonicalizePath "a/../b" = .ok "b" := rfl
example : PolicyModel.cleanPath "/a/../../b" = "/b" := rfl
example : PolicyModel.CheckPaths (PolicyModel.NewPolicy "" "") ["/"] = none := rfl
example : (PolicyModel.CheckPaths (PolicyModel.NewPolicy "" "") [".env.local"]).map (·.code) = some .pathForbidden := rfl
example : PolicyModel.CheckPaths (PolicyModel.NewPolicy "" "") [".environment"] = none := rfl
example : PolicyModel.mergeUniquePrefixes PolicyModel.builtinForbiddenPrefixes (PolicyModel.parsePrefixesCSV ".github/,infra/,.env") = [".github/", ".git/", "secrets/", ".env", "infra/"] := rfl

namespace BatchModel

/-! ## `DeriveBatchStatus` (batch aggregate status) -/

/-- `DeriveBatchStatus(total, replayed, errCount)` over Go `int`s. -/
def DeriveBatchStatus (total replayed errCount : Int) : String :=
  if errCount ≤ 0 then "ok"
  else if errCount = total - replayed then "fail"
  else "partial"

end BatchModel

namespace ErrMapModel

/-! ## `internal/core/error_map.go` and `internal/core/idempotency.go` -/

/-- A Go `error` as seen by `MapError`: its message, plus the code revealed by
`errors.As(err, &coded)` when the dynamic type implements `CodedError`. -/
structure GoErr where
  msg : String
  codedCode : Option String
deriving DecidableEq, Repr

structure ErrorInfo where
  code : String
  message : String
  httpStatus : Nat
deriving DecidableEq, Repr

/-- `&IdempotencyConflictError{}` (empty `Detail`, so `Error()` returns the
default text; `ErrorCode()` returns `idempotency_key_conflict`). -/
def IdempotencyConflictError : GoErr :=
  { msg := "idempotency key reused with different request payload"
    codedCode := some "idempotency_key_conflict" }

/-- `MapError(err, fallbackStatus)`. -/
def MapError (err : Option GoErr) (fallbackStatus : Nat) : ErrorInfo :=
  match err with
  | none => { code := "internal_error", message := "internal server error", httpStatus := fallbackStatus }
  | some e =>
    let msg := e.msg
    let lower := goToLower msg
    match e.codedCode with
    | some code =>
      if code = "qa_command_empty" ∨ code = "qa_command_invalid" ∨ code = "qa_workdir_invalid" ∨ code = "qa_tool_unsupported" then
        { code := code, message := msg, httpStatus := 400 }
      else if code = "qa_command_not_allowed" then
        { code := code, message := msg, httpStatus := 403 }
      else if code = "qa_timeout" then
        { code := code, message := msg, httpStatus := 200 }
      else if code = "qa_execution_failed" then
        { code := code, message := msg, httpStatus := 200 }
      else MapErrorStringCases msg lower fallbackStatus
    | none => MapErrorStringCases msg lower fallbackStatus
where
  /-- The `switch { case strings.Contains(...) }` tail of `MapError`. -/
  MapErrorStringCases (msg lower : String) (fallbackStatus : Nat) : ErrorInfo :=
    if goContains lower "repo" && goContains lower "allowlist" then
      { code := "repo_not_allowed", message := msg, httpStatus := 403 }
    else if goContains lower "tool" && goContains lower "allowlist" then
      { code := "tool_not_allowed", message := msg, httpStatus := 403 }
    else if goContains lower "run not found" then
      { code := "run_not_found", message := "run not found", httpStatus := 404 }
    else if goContains lower "invalid json" || goContains lower "request body must contain a single json object" then
      { code := "invalid_request_schema", message := msg, httpStatus := 400 }
    else if goContains lower "title is required" || goContains lower "exceeds" || goContains lower "labels must not contain" then
      { code := "invalid_request_schema", message := msg, httpStatus := 400 }
    else if goContains lower "discover installation id" || goContains lower "no installation found" || goContains lower "multiple installations found" then
      { code := "app_not_installed", message := msg, httpStatus := 502 }
    else if goContains lower "http 403" then
      { code := "github_permission_denied", message := msg, httpStatus := 502 }
    else if goContains lower "http 401" then
      { code := "github_auth_failed", message := msg, httpStatus := 502 }
    else if goContains lower "http 404" then
      { code := "github_not_found", message := msg, httpStatus := 502 }
    else if goContains lower "http 422" then
      { code := "github_validation_failed", message := msg, httpStatus := 400 }
    else if 400 ≤ fallbackStatus ∧ fallbackStatus < 500 then
      { code := "bad_request", message := msg, httpStatus := fallbackStatus }
    else
      { code := "internal_error", message := msg, httpStatus := fallbackStatus }

end ErrMapModel

namespace HttpModel

/-! ## Response-writing helpers of `internal/http/server.go` -/

/-- The status→code switch inside `writeErr`. -/
def writeErrCode (status : Nat) : String :=
  if status = 400 then "invalid_request_schema"
  else if status = 403 then "forbidden"
  else if status = 404 then "not_found"
  else if 500 ≤ status ∧ status < 600 then "upstream_error"
  else "internal_error"

end HttpModel

example : ErrMapModel.MapError (some ErrMapModel.IdempotencyConflictError) 500
    = { code := "internal_error", message := "idempotency key reused with different request payload", httpStatus := 500 } := rfl
example : ErrMapModel.MapError (some { msg := "tool \"z\" not in allowlist", codedCode := none }) 500
    = { code := "tool_not_allowed", message := "tool \"z\" not in allowlist", httpStatus := 403 } := rfl
example : ErrMapModel.MapError (some { msg := "QA command timed out after 5s", codedCode := some "qa_timeout" }) 500
    = { code := "qa_timeout", message := "QA command timed out after 5s", httpStatus := 200 } := rfl
example : BatchModel.DeriveBatchStatus 3 1 2 = "fail" := rfl
example : BatchModel.DeriveBatchStatus 2 2 0 = "ok" := rfl
example : BatchModel.DeriveBatchStatus 3 0 2 = "partial" := rfl

namespace ApprovalModel

/-! ## Approvals: `internal/db/db.go` rows and the resolve path of
`internal/core/audit.go` / `internal/http/server.go`.  Timestamps are `Nat`. -/

structure Approval where
  approvalId : String
  runId : String
  scope : String
  status : String
  requestedAt : Nat
  approvedAt : Option Nat
  approver : Option String
  createdAt : Nat
deriving DecidableEq, Repr

/-- A `decisions` row (the fields the resolve path writes). -/
structure DecisionRow where
  decisionId : String
  runId : String
  actor : String
  decisionType : String
  createdAt : Nat
deriving DecidableEq, Repr

structure ApprovalDB where
  approvals : List Approval
  decisions : List DecisionRow
deriving Repr

/-- `UpdateApprovalDecision`: `UPDATE approvals SET status, approved_at,
approver WHERE approval_id = $1` — no condition on the current status. -/
def UpdateApprovalDecision (dbs : ApprovalDB) (approvalID status : String)
    (approvedAt : Option Nat) (approver : Option String) : ApprovalDB :=
  { dbs with
    approvals := dbs.approvals.map fun a =>
      if a.approvalId = approvalID then
        { a with status := status, approvedAt := approvedAt, approver := approver }
      else a }

/-- `GetApproval` (`WHERE approval_id = $1`; ids are unique, `find?` takes the row). -/
def GetApproval (dbs : ApprovalDB) (approvalID : String) : Option Approval :=
  dbs.approvals.find? (·.approvalId = approvalID)

/-- `InsertDecision`. -/
def InsertDecision (dbs : ApprovalDB) (d : DecisionRow) : ApprovalDB :=
  { dbs with decisions := dbs.decisions ++ [d] }

/-- `AuditService.ResolveApproval`: unconditional update, then an
`approval_approved`/`approval_rejected` decision, then re-read the row. -/
def ResolveApproval (dbs : ApprovalDB) (approvalID runID status approver : String)
    (now : Nat) (decisionId : String) : ApprovalDB × Option Approval :=
  let dbs1 := UpdateApprovalDecision dbs approvalID status (some now) (some approver)
  let decisionType := if status = "approved" then "approval_approved" else "approval_rejected"
  let dbs2 := InsertDecision dbs1
    { decisionId := decisionId, runId := runID, actor := approver
      decisionType := decisionType, createdAt := now }
  (dbs2, GetApproval dbs2 approvalID)

/-- `handleResolveApproval` (HTTP slice): run lookup, approval lookup and
run-scoping, approver presence — then resolve.  `Except` carries
`(httpStatus, body code)` built by `writeErr`. -/
def handleResolveApproval (dbs : ApprovalDB) (runExists : Bool)
    (runID approvalID status approverBody : String) (now : Nat) (decisionId : String) :
    Except (Nat × String) (ApprovalDB × Option Approval) :=
  if ¬ runExists then .error (404, HttpModel.writeErrCode 404)
  else
    match GetApproval dbs approvalID with
    | none => .error (404, HttpModel.writeErrCode 404)
    | some current =>
      if current.runId ≠ runID then .error (404, HttpModel.writeErrCode 404)
      else if goTrimSpace approverBody = "" then .error (400, HttpModel.writeErrCode 400)
      else .ok (ResolveApproval dbs approvalID runID status approverBody now decisionId)

end ApprovalModel

namespace ArtifactModel

/-! ## `internal/core/artifact.go` (`Save`) and `internal/core/audit.go`
(`Record`) at the byte level.

The filesystem is a finite map `path ↦ bytes`; `os.Create` truncates, so
`writeFile` replaces any previous entry.  I/O and DB failures are injected
through explicit event records, mirroring each `if err != nil` branch of the
source. `hash` stands for lowercase-hex SHA-256 throughout. -/

structure Artifact where
  artifactId : String
  runId : String
  name : String
  uri : String
  sha256hex : String
  sizeBytes : Nat
  contentType : String
deriving DecidableEq, Repr

structure StoreState where
  files : List (String × Bytes)
  rows : List Artifact
deriving Repr

/-- `os.Remove`. -/
def removeFile : List (String × Bytes) → String → List (String × Bytes)
  | [], _ => []
  | e :: fs, path => if e.1 = path then removeFile fs path else e :: removeFile fs path

/-- `os.Create` + write-through (truncates an existing file). -/
def writeFile (fs : List (String × Bytes)) (path : String) (content : Bytes) :
    List (String × Bytes) :=
  (path, content) :: removeFile fs path

/-- Read back a blob. -/
def readFile : List (String × Bytes) → String → Option Bytes
  | [], _ => none
  | e :: fs, path => if e.1 = path then some e.2 else readFile fs path

/-- Failure injection for one `Save` call: `os.Create` failing, the
copy/close failing after writing a partial blob, and `InsertArtifact`
failing. -/
structure SaveEvents where
  createErr : Bool
  copyErr : Option Bytes
  insertErr : Bool
deriving Repr

/-- `${baseDir}/{runId}/{artifactId}` (`filepath.Join` on pre-cleaned pieces). -/
def savePath (baseDir runId id : String) : String :=
  baseDir ++ "/" ++ runId ++ "/" ++ id

/-- `ArtifactStore.Save`: stream to disk while hashing; on a copy/close error
remove the partial file; insert the metadata row; on insert error remove the
blob.  Returns the new state and `some` artifact exactly on success. -/
def Save (hash : Bytes → String) (baseDir : String) (st : StoreState)
    (id runId name contentType : String) (body : Bytes) (ev : SaveEvents) :
    StoreState × Option Artifact :=
  let fpath := savePath baseDir runId id
  if ev.createErr then (st, none)
  else
    match ev.copyErr with
    | some writtenSoFar =>
      ({ st with files := removeFile (writeFile st.files fpath writtenSoFar) fpath }, none)
    | none =>
      let files1 := writeFile st.files fpath body
      let art : Artifact :=
        { artifactId := id, runId := runId, name := name
          uri := "file://" ++ fpath, sha256hex := hash body
          sizeBytes := body.length, contentType := contentType }
      if ev.insertErr then ({ st with files := removeFile files1 fpath }, none)
      else ({ files := files1, rows := art :: st.rows }, some art)

/-- A `tool_calls` row. -/
structure ToolCallRow where
  toolCallId : String
  runId : String
  toolName : String
  idempotencyKey : Option String
  status : String
  requestArtifactId : Option String
  responseArtifactId : Option String
  evidenceHash : String
deriving DecidableEq, Repr

structure AuditState where
  store : StoreState
  toolCalls : List ToolCallRow
deriving Repr

/-- Failure injection for one `Record` call. -/
structure RecordEvents where
  reqSave : SaveEvents
  respSave : SaveEvents
  extraSaves : List SaveEvents
  insertToolCallErr : Bool
deriving Repr

/-- One `extras[]` entry: artifact id to mint, name, content type, body. -/
structure ExtraSpec where
  id : String
  name : String
  contentType : String
  body : Bytes
deriving Repr

/-- The `for _, extra := range in.ExtraArtifacts` loop of `Record`; on
failure the whole operation fails but earlier artifacts stay on disk. -/
def saveExtras (hash : Bytes → String) (baseDir : String) (st : StoreState)
    (runId : String) : List ExtraSpec → List SaveEvents → StoreState × Option (List String)
  | [], _ => (st, some [])
  | e :: es, evs =>
    match Save hash baseDir st e.id runId e.name e.contentType e.body
        (evs.headD { createErr := false, copyErr := none, insertErr := false }) with
    | (st1, none) => (st1, none)
    | (st1, some art) =>
      match saveExtras hash baseDir st1 runId es evs.tail with
      | (st2, none) => (st2, none)
      | (st2, some ids) => (st2, some (art.artifactId :: ids))

/-- `AuditService.Record`: re-check the tool allowlist, save the request and
response JSON as artifacts, save the extras, compute
`sha256(reqJSON ‖ respJSON)`, and insert the ToolCall row.  `reqJSON` and
`respJSON` are the already-marshalled bytes; `status` is `ok` iff the
recorded upstream error is absent. -/
def Record (hash : Bytes → String) (baseDir : String) (policy : PolicyModel.Policy)
    (st : AuditState) (tcId reqId respId runId toolName : String)
    (idemKey : Option String) (reqJSON respJSON : Bytes) (upstreamErr : Bool)
    (extras : List ExtraSpec) (evs : RecordEvents) :
    AuditState × Option (ToolCallRow × List String) :=
  if (PolicyModel.CheckTool policy toolName).isSome then (st, none)
  else
    match Save hash baseDir st.store reqId runId (toolName ++ ".request.json") "application/json" reqJSON evs.reqSave with
    | (st1, none) => ({ st with store := st1 }, none)
    | (st1, some reqArt) =>
      match Save hash baseDir st1 respId runId (toolName ++ ".response.json") "application/json" respJSON evs.respSave with
      | (st2, none) => ({ st with store := st2 }, none)
      | (st2, some respArt) =>
        match saveExtras hash baseDir st2 runId extras evs.extraSaves with
        | (st3, none) => ({ st with store := st3 }, none)
        | (st3, some extraIds) =>
          let status := if upstreamErr then "fail" else "ok"
          let tc : ToolCallRow :=
            { toolCallId := tcId, runId := runId, toolName := toolName
              idempotencyKey := idemKey, status := status
              requestArtifactId := some reqArt.artifactId
              responseArtifactId := some respArt.artifactId
              evidenceHash := hash (reqJSON ++ respJSON) }
          if evs.insertToolCallErr then ({ st with store := st3 }, none)
          else ({ store := st3, toolCalls := tc :: st.toolCalls }, some (tc, extraIds))

end ArtifactModel

namespace IssueModel

/-! ## `github.issues.create`: `internal/core/issue.go` and
`handleCreateIssue` of `internal/http/server.go`.

Artifacts are modelled at the level of structured values: JSON
marshal/unmarshal round-trips are the identity on this level, and the
marshalled bytes (for the idempotency payload and the stored-request
comparison of `ReplayResponseWithRequestCheck`) come from abstract `marshal`
parameters.  `json.Marshal` emits compact JSON, so `json.Compact` of a
marshalled value is the value's marshalling — byte comparison of the
normalized stored and current requests is comparison of the two marshal
images. -/

/-- UTF-8 byte length (`len(s)` in Go). -/
def goByteLen (s : String) : Nat := s.data.foldl (fun n c => n + c.utf8Size) 0

/-- `ValidateIssueInput` (`some msg` is the non-nil error). -/
def ValidateIssueInput (title body : String) (labels : List String) : Option String :=
  let t := goTrimSpace title
  if t = "" then some "title is required"
  else if goByteLen t > 256 then some "title exceeds 256 characters"
  else if goByteLen body > 65536 then some "body exceeds 65536 characters"
  else if labels.length > 20 then some "labels exceed 20 items"
  else if labels.any (fun label => goTrimSpace label = "") then
    some "labels must not contain empty values"
  else if labels.any (fun label => goByteLen label > 50) then
    some "label exceeds 50 characters"
  else none

/-- The `idempotencyPayload` struct (note: no dry-run field). -/
structure IdemPayload where
  runId : String
  toolName : String
  title : String
  body : String
  labels : List String
  index : Option Nat
deriving DecidableEq, Repr

/-- `MakeIssueIdempotencyKey`: trim the title, trim and sort the labels,
marshal the canonical payload, hash it. -/
def MakeIssueIdempotencyKey (marshalPayload : IdemPayload → Bytes) (hash : Bytes → String)
    (runId toolName title body : String) (labels : List String) (index : Option Nat) : String :=
  hash (marshalPayload
    { runId := runId, toolName := toolName, title := goTrimSpace title, body := body
      labels := sortStrings (labels.map goTrimSpace), index := index })

structure Issue where
  number : Nat
  htmlUrl : String
deriving DecidableEq, Repr

/-- `createIssueBody` (the decoded request). -/
structure CreateIssueArgs where
  title : String
  body : String
  labels : List String
  dryRun : Bool
deriving DecidableEq, Repr

structure Preview where
  repo : String
  title : String
  body : String
  labels : List String
deriving DecidableEq, Repr

/-- The response map recorded by `handleCreateIssue`:
`{"issue": ..., "preview": ...}`. -/
structure IssueResponse where
  issue : Option Issue
  preview : Preview
deriving DecidableEq, Repr

/-- An artifact blob, as a structured value. -/
inductive ArtifactVal where
  | req (args : CreateIssueArgs)
  | resp (r : IssueResponse)
deriving DecidableEq, Repr

structure ToolCallRow where
  toolCallId : String
  runId : String
  toolName : String
  idempotencyKey : Option String
  status : String
  requestArtifactId : Option String
  responseArtifactId : Option String
  evidenceHash : String
deriving DecidableEq, Repr

structure ServerState where
  toolCalls : List ToolCallRow
  artifacts : List (String × ArtifactVal)
deriving Repr

/-- `GetSuccessfulToolCallByIdempotency` (`ORDER BY created_at DESC LIMIT 1`:
inserts prepend, so `find?` returns the newest row). -/
def GetSuccessfulToolCallByIdempotency (st : ServerState)
    (runId toolName key : String) : Option ToolCallRow :=
  st.toolCalls.find? fun tc =>
    tc.runId == runId && tc.toolName == toolName &&
    tc.idempotencyKey == some key && tc.status == "ok"

/-- `ArtifactStore.Read` at value level. -/
def readArtifact (st : ServerState) (artifactId : String) : Option ArtifactVal :=
  (st.artifacts.find? (·.1 == artifactId)).map (·.2)

/-- `AuditService.ReplayResponse`: `ok none` means no stored call (fresh
path); `ok (some _)` is a replay; `error` is an internal read failure. -/
def ReplayResponse (st : ServerState) (runId toolName key : String) :
    Except ErrMapModel.GoErr (Option (ToolCallRow × IssueResponse)) :=
  match GetSuccessfulToolCallByIdempotency st runId toolName key with
  | none => .ok none
  | some tc =>
    match tc.responseArtifactId with
    | none => .error { msg := "response artifact missing for replay", codedCode := none }
    | some respId =>
      match readArtifact st respId with
      | some (.resp r) => .ok (some (tc, r))
      | _ => .error { msg := "read artifact file: not found", codedCode := none }

/-- `AuditService.ReplayResponseWithRequestCheck`: additionally reads the
stored request artifact and compares the whitespace-normalized serializations;
a mismatch is the typed `IdempotencyConflictError`. -/
def ReplayResponseWithRequestCheck (marshalReq : CreateIssueArgs → Bytes)
    (st : ServerState) (runId toolName key : String) (request : CreateIssueArgs) :
    Except ErrMapModel.GoErr (Option (ToolCallRow × IssueResponse)) :=
  match GetSuccessfulToolCallByIdempotency st runId toolName key with
  | none => .ok none
  | some tc =>
    match tc.requestArtifactId with
    | none => .error { msg := "request artifact missing for idempotency check", codedCode := none }
    | some reqId =>
      match readArtifact st reqId with
      | some (.req stored) =>
        if marshalReq stored ≠ marshalReq request then
          .error ErrMapModel.IdempotencyConflictError
        else
          match tc.responseArtifactId with
          | none => .error { msg := "response artifact missing for replay", codedCode := none }
          | some respId =>
            match readArtifact st respId with
            | some (.resp r) => .ok (some (tc, r))
            | _ => .error { msg := "read artifact file: not found", codedCode := none }
      | _ => .error { msg := "read artifact file: not found", codedCode := none }

inductive IssueOutcome where
  /-- an error envelope `{code, message}` with its HTTP status -/
  | httpError (status : Nat) (code : String)
  /-- a replay: `meta.replayed=true`, result from the stored response -/
  | replayed (tc : ToolCallRow) (stored : IssueResponse)
  /-- a fresh call: the recorded row and the recorded response -/
  | fresh (tc : ToolCallRow) (resp : IssueResponse)
deriving DecidableEq, Repr

/-- `handleCreateIssue`.  `headerKey` is the raw `Idempotency-Key` header
(`""` when absent); `ghResult` is the code-forge collaborator oracle.  The
third component of the result reports whether `gh.CreateIssue` was invoked. -/
def handleCreateIssue (marshalPayload : IdemPayload → Bytes)
    (marshalReq : CreateIssueArgs → Bytes) (marshalResp : IssueResponse → Bytes)
    (hash : Bytes → String) (st : ServerState) (runExists : Bool) (runRepo runId : String)
    (args : CreateIssueArgs) (headerKey : String)
    (ghResult : Except ErrMapModel.GoErr Issue) (reqId respId tcId : String) :
    ServerState × IssueOutcome × Bool :=
  if ¬ runExists then (st, .httpError 404 (HttpModel.writeErrCode 404), false)
  else if (ValidateIssueInput args.title args.body args.labels).isSome then
    (st, .httpError 400 (HttpModel.writeErrCode 400), false)
  else
    let headerIdemKey := goTrimSpace headerKey
    let idemKey :=
      if headerIdemKey ≠ "" then headerIdemKey
      else MakeIssueIdempotencyKey marshalPayload hash runId "github.issues.create"
        args.title args.body args.labels none
    let replayAttempt :=
      if headerIdemKey ≠ "" then
        ReplayResponseWithRequestCheck marshalReq st runId "github.issues.create" idemKey args
      else ReplayResponse st runId "github.issues.create" idemKey
    match replayAttempt with
    | .error e =>
      let mapped := ErrMapModel.MapError (some e) 500
      (st, .httpError mapped.httpStatus mapped.code, false)
    | .ok (some (tc, stored)) => (st, .replayed tc stored, false)
    | .ok none =>
      let issueAndErr : Option Issue × Option ErrMapModel.GoErr × Bool :=
        if args.dryRun then (none, none, false)
        else
          match ghResult with
          | .ok issue => (some issue, none, true)
          | .error e => (none, some e, true)
      let issue := issueAndErr.1
      let ghErr := issueAndErr.2.1
      let ghInvoked := issueAndErr.2.2
      let response : IssueResponse :=
        { issue := issue
          preview := { repo := runRepo, title := args.title, body := args.body, labels := args.labels } }
      let tc : ToolCallRow :=
        { toolCallId := tcId, runId := runId, toolName := "github.issues.create"
          idempotencyKey := some idemKey
          status := if ghErr.isSome then "fail" else "ok"
          requestArtifactId := some reqId, responseArtifactId := some respId
          evidenceHash := hash (marshalReq args ++ marshalResp response) }
      let st1 : ServerState :=
        { toolCalls := tc :: st.toolCalls
          artifacts := (respId, .resp response) :: (reqId, .req args) :: st.artifacts }
      match ghErr with
      | some e =>
        let mapped := ErrMapModel.MapError (some e) 502
        (st1, .httpError mapped.httpStatus mapped.code, ghInvoked)
      | none => (st1, .fresh tc response, ghInvoked)

end IssueModel

namespace GateModel

/-! ## `handleCodeBranchPR` (`internal/http/server.go`).

The pre-external validation chain is modelled step by step; the git runner
(`s.code.Execute`), the code forge (`s.gh.CreatePullRequest`) and the audit
insert are oracles.  The outcome records whether each external collaborator
was reached. -/

structure Run where
  runId : String
  repo : String
deriving DecidableEq, Repr

/-- `codeBranchPRBody` (only the path of each file matters to the policy). -/
structure BranchPRBody where
  approvalId : String
  baseBranch : String
  headBranch : String
  commitMessage : String
  prTitle : String
  prBody : String
  files : List String
  dryRun : Bool
deriving DecidableEq, Repr

inductive GateResp where
  | err (status : Nat) (code : String)
  | okEnvelope
deriving DecidableEq, Repr

structure BranchPROutcome where
  response : GateResp
  codeInvoked : Bool
  ghInvoked : Bool
deriving DecidableEq, Repr

/-- `handleCodeBranchPR`: run lookup → tool allowlist → runner configured →
`approval_id` present → approval exists and is run-scoped → approval
`approved` → path policy → externals (git runner, then PR creation unless
dry-run or a runner error) → audit → error mapping. -/
def handleCodeBranchPR (policy : PolicyModel.Policy) (runLookup : Option Run)
    (codeConfigured : Bool) (approvalLookup : Option ApprovalModel.Approval)
    (runId : String) (body : BranchPRBody)
    (codeExecErr : Option ErrMapModel.GoErr) (prErr : Option ErrMapModel.GoErr)
    (auditOk : Bool) : BranchPROutcome :=
  match runLookup with
  | none => ⟨.err 404 (HttpModel.writeErrCode 404), false, false⟩
  | some _run =>
    if (PolicyModel.CheckTool policy "code.branch_pr.create").isSome then
      ⟨.err 403 (HttpModel.writeErrCode 403), false, false⟩
    else if ¬ codeConfigured then ⟨.err 500 (HttpModel.writeErrCode 500), false, false⟩
    else if goTrimSpace body.approvalId = "" then ⟨.err 400 (HttpModel.writeErrCode 400), false, false⟩
    else
      match approvalLookup with
      | none => ⟨.err 404 (HttpModel.writeErrCode 404), false, false⟩
      | some approval =>
        if approval.runId ≠ runId then ⟨.err 404 (HttpModel.writeErrCode 404), false, false⟩
        else if approval.status ≠ "approved" then ⟨.err 403 (HttpModel.writeErrCode 403), false, false⟩
        else
          match PolicyModel.CheckPaths policy body.files with
          | some _violation => ⟨.err 403 (HttpModel.writeErrCode 403), false, false⟩
          | none =>
            -- external phase: git runner first, then the PR on success
            let ghInvoked := codeExecErr.isNone && !body.dryRun
            let runErr := match codeExecErr with
              | some e => some e
              | none => if ghInvoked then prErr else none
            if ¬ auditOk then ⟨.err 500 (HttpModel.writeErrCode 500), true, ghInvoked⟩
            else
              match runErr with
              | some e =>
                let mapped := ErrMapModel.MapError (some e) 502
                ⟨.err mapped.httpStatus mapped.code, true, ghInvoked⟩
              | none => ⟨.okEnvelope, true, ghInvoked⟩

end GateModel

namespace RepairModel

/-! ## `handleCodeRepairLoop` (`internal/http/server.go`).

External collaborators are oracles indexed by iteration.  `StartStep`,
`RecordDecision` and `FinishStep` have no body under the extracted sources
(only their call sites are present); per the spec (§4.3) they are
straightforward inserts, and decision recording is best-effort — here they
are modelled as list appends that always succeed. -/

structure PullReq where
  number : Nat
  url : String
deriving DecidableEq, Repr

/-- `codeRepairLoopBody`. -/
structure RepairBody where
  maxIterations : Int
  approvalId : String
  baseBranch : String
  headBranch : String
  commitMessage : String
  prTitle : String
  prBody : String
  files : List String
  dryRun : Bool
deriving DecidableEq, Repr

/-- The `result` map assembled by the handler. -/
structure RepairResultMap where
  iterationsRequested : Int
  iterationsRun : Nat
  baseBranch : String
  headBranch : String
  plannedCommands : List String
  commitHash : String
  qaPassed : Bool
  status : String
  qaFailureReason : Option String
  rollbackPlannedCommands : Option (List String)
  rollbackError : Option String
  pullRequest : Option PullReq
deriving DecidableEq, Repr

/-- Decisions appended on the step's timeline (payloads as structured values). -/
inductive RepairDecision where
  | started (maxIterations : Int)
  | iterationAttempt (i : Nat) (testErr lintErr : Option String)
  | completed (result : RepairResultMap)
  | failed (result : RepairResultMap)
deriving DecidableEq, Repr

/-- Collaborator oracles: the git runner, the per-iteration QA runs
(`none` = the run returned no error, i.e. passed), the rollback, the PR. -/
structure RepairOracles where
  codeExecErr : Option ErrMapModel.GoErr
  codeExecPlanned : List String
  codeExecCommit : String
  qaTestErr : Nat → Option String
  qaLintErr : Nat → Option String
  rollbackPlanned : Option (List String)
  rollbackErr : Option String
  prResult : Except ErrMapModel.GoErr PullReq

/-- The `for i := 1; i <= body.MaxIterations; i++` QA loop, recursing on the
remaining iteration budget.  Returns `(iterations run, qaPassed, QA
sub-calls made, iteration decisions in order)`; each iteration invokes the
QA collaborator exactly twice (one test, one lint) and the loop breaks as
soon as both return no error. -/
def qaLoop (test lint : Nat → Option String) : Nat → Nat → Nat × Bool × Nat × List RepairDecision
  | _, 0 => (0, false, 0, [])
  | i, fuel + 1 =>
    if (test i).isNone && (lint i).isNone then
      (1, true, 2, [RepairDecision.iterationAttempt i (test i) (lint i)])
    else
      ((qaLoop test lint (i + 1) fuel).1 + 1,
        (qaLoop test lint (i + 1) fuel).2.1,
        (qaLoop test lint (i + 1) fuel).2.2.1 + 2,
        RepairDecision.iterationAttempt i (test i) (lint i) :: (qaLoop test lint (i + 1) fuel).2.2.2)

structure RepairOutcome where
  response : GateModel.GateResp
  codeExecInvoked : Bool
  qaCalls : Nat
  rollbackInvoked : Bool
  prInvoked : Bool
  result : Option RepairResultMap
  decisions : List RepairDecision

/-- The post-validation body of `handleCodeRepairLoop` (`m` is the already
normalized and capped `max_iterations`): branch creation, the bounded QA
loop, rollback on QA failure, PR creation on success, and the final
decision/step bookkeeping. -/
def repairCore (body : RepairBody) (or : RepairOracles) (m : Int) : RepairOutcome :=
  -- step started, `repair_loop_started` decision, branch creation
  let startedDec := RepairDecision.started m
  let result0 : RepairResultMap :=
    { iterationsRequested := m, iterationsRun := 0
      baseBranch := body.baseBranch, headBranch := body.headBranch
      plannedCommands := or.codeExecPlanned, commitHash := or.codeExecCommit
      qaPassed := false, status := "completed", qaFailureReason := none
      rollbackPlannedCommands := none, rollbackError := none, pullRequest := none }
  let enterLoop := or.codeExecErr.isNone && !body.dryRun
  let loopOut := if enterLoop then qaLoop or.qaTestErr or.qaLintErr 1 m.toNat
    else (0, false, 0, [])
  let iterationsRun := loopOut.1
  let qaPassed := loopOut.2.1
  let qaCalls := loopOut.2.2.1
  let iterDecs := loopOut.2.2.2
  let rollbackInvoked := enterLoop && !qaPassed
  let result1 :=
    if enterLoop && !qaPassed then
      { result0 with
        status := "failed"
        qaFailureReason := some ("qa checks failed after " ++ toString iterationsRun ++ " iteration(s)")
        rollbackPlannedCommands := or.rollbackPlanned
        rollbackError := or.rollbackErr }
    else result0
  let runErr1 : Option ErrMapModel.GoErr :=
    match or.codeExecErr with
    | some e => some e
    | none => if enterLoop && !qaPassed then some { msg := "qa checks failed", codedCode := none } else none
  let result2 := { result1 with iterationsRun := iterationsRun, qaPassed := qaPassed }
  let prInvoked := runErr1.isNone && !body.dryRun && qaPassed
  let prOut : Option PullReq × Option ErrMapModel.GoErr :=
    if prInvoked then
      match or.prResult with
      | .ok pr => (some pr, none)
      | .error e => (none, some e)
    else (none, none)
  let runErr2 := match runErr1 with
    | some e => some e
    | none => prOut.2
  let result3 := { result2 with pullRequest := prOut.1 }
  let result4 :=
    if runErr2.isSome then { result3 with status := "failed" }
    else if body.dryRun then { result3 with status := "dry_run" }
    else result3
  let finalDec := if runErr2.isSome then RepairDecision.failed result4
    else RepairDecision.completed result4
  let decisions := startedDec :: iterDecs ++ [finalDec]
  let response := match runErr2 with
    | some e =>
      let mapped := ErrMapModel.MapError (some e) 502
      GateModel.GateResp.err mapped.httpStatus mapped.code
    | none => GateModel.GateResp.okEnvelope
  ⟨response, true, qaCalls, rollbackInvoked, prInvoked, some result4, decisions⟩

/-- `handleCodeRepairLoop`: the validation chain (run, allowlist, runners
configured, `max_iterations` normalized to `1` when non-positive and capped
at `3`, `approval_id` present, approval exists/run-scoped/approved, path
policy), then `repairCore`. -/
def handleCodeRepairLoop (policy : PolicyModel.Policy) (runLookup : Option GateModel.Run)
    (codeConfigured qaConfigured : Bool) (approvalLookup : Option ApprovalModel.Approval)
    (runId : String) (body : RepairBody) (or : RepairOracles) : RepairOutcome :=
  match runLookup with
  | none => ⟨.err 404 (HttpModel.writeErrCode 404), false, 0, false, false, none, []⟩
  | some _run =>
    if (PolicyModel.CheckTool policy "code.repair_loop").isSome then
      ⟨.err 403 (HttpModel.writeErrCode 403), false, 0, false, false, none, []⟩
    else if ¬ codeConfigured then ⟨.err 500 (HttpModel.writeErrCode 500), false, 0, false, false, none, []⟩
    else if ¬ qaConfigured then ⟨.err 500 (HttpModel.writeErrCode 500), false, 0, false, false, none, []⟩
    else
      let m : Int := if body.maxIterations ≤ 0 then 1 else body.maxIterations
      if m > 3 then ⟨.err 400 (HttpModel.writeErrCode 400), false, 0, false, false, none, []⟩
      else if goTrimSpace body.approvalId = "" then
        ⟨.err 400 (HttpModel.writeErrCode 400), false, 0, false, false, none, []⟩
      else
        match approvalLookup with
        | none => ⟨.err 404 (HttpModel.writeErrCode 404), false, 0, false, false, none, []⟩
        | some approval =>
          if approval.runId ≠ runId then
            ⟨.err 404 (HttpModel.writeErrCode 404), false, 0, false, false, none, []⟩
          else if approval.status ≠ "approved" then
            ⟨.err 403 (HttpModel.writeErrCode 403), false, 0, false, false, none, []⟩
          else
            match PolicyModel.CheckPaths policy body.files with
            | some _violation => ⟨.err 403 (HttpModel.writeErrCode 403), false, 0, false, false, none, []⟩
            | none => repairCore body or m

end RepairModel

/-! ## Concrete fixtures used by counterexamples and witnesses -/

/-- An approval that is already resolved (`approved` by alice). -/
def approvalA : ApprovalModel.Approval :=
  { approvalId := "ap1", runId := "r1", scope := "path_change", status := "approved"
    requestedAt := 1, approvedAt := some 2, approver := some "alice", createdAt := 1 }

def dbA : ApprovalModel.ApprovalDB := { approvals := [approvalA], decisions := [] }

/-- A policy allowing the protected tools (and one repo). -/
def policyA : PolicyModel.Policy :=
  PolicyModel.NewPolicy "octo/demo" "github.issues.create,code.branch_pr.create,code.repair_loop"

def runA : GateModel.Run := { runId := "r1", repo := "octo/demo" }

def branchBodyA : GateModel.BranchPRBody :=
  { approvalId := "ap1", baseBranch := "main", headBranch := "feat", commitMessage := "msg"
    prTitle := "t", prBody := "b", files := ["src/a.go"], dryRun := false }

def repairBodyA : RepairModel.RepairBody :=
  { maxIterations := 2, approvalId := "ap1", baseBranch := "main", headBranch := "feat"
    commitMessage := "msg", prTitle := "t", prBody := "b", files := ["src/a.go"], dryRun := false }

/-- Repair oracles where QA fails every iteration and the rollback reports
its planned commands. -/
def repairOraclesFailA : RepairModel.RepairOracles :=
  { codeExecErr := none, codeExecPlanned := ["git checkout"], codeExecCommit := "abc"
    qaTestErr := fun _ => some "tests failed", qaLintErr := fun _ => none
    rollbackPlanned := some ["git reset"], rollbackErr := none
    prResult := .ok { number := 7, url := "u" } }

/-- Stored request/response of an earlier ok `github.issues.create` call
under the explicit header key `k1`. -/
def storedArgsC5 : IssueModel.CreateIssueArgs :=
  { title := "A", body := "b", labels := [], dryRun := false }

def storedRespC5 : IssueModel.IssueResponse :=
  { issue := some { number := 1, htmlUrl := "u" }
    preview := { repo := "octo/demo", title := "A", body := "b", labels := [] } }

def stateC5 : IssueModel.ServerState :=
  { toolCalls := [{ toolCallId := "t1", runId := "r1", toolName := "github.issues.create"
                    idempotencyKey := some "k1", status := "ok"
                    requestArtifactId := some "a1", responseArtifactId := some "a2"
                    evidenceHash := "h" }]
    artifacts := [("a1", .req storedArgsC5), ("a2", .resp storedRespC5)] }

/-- A marshaller that distinguishes the stored and the current request. -/
def marshalReqByTitle (a : IssueModel.CreateIssueArgs) : Bytes := a.title.data.map Char.toNat

/-- The invariant `Save` must maintain (claim on artifact atomicity): on
success, the returned row is inserted and the blob at the save path holds
exactly the body, with the row's digest the hash of those bytes; on any
injected copy/close or insert failure the blob at the save path has been
deleted and no row was inserted (when `os.Create` itself failed nothing was
written in the first place). -/
def SaveOutcomeInv (hash : Bytes → String) (baseDir : String) (st : ArtifactModel.StoreState)
    (id runId name contentType : String) (body : Bytes) (ev : ArtifactModel.SaveEvents) : Prop :=
  let fpath := ArtifactModel.savePath baseDir runId id
  let out := ArtifactModel.Save hash baseDir st id runId name contentType body ev
  match out.2 with
  | some art =>
    out.1.rows = art :: st.rows ∧
    ArtifactModel.readFile out.1.files fpath = some body ∧
    art.sha256hex = hash body ∧
    art.sizeBytes = body.length ∧
    art.uri = "file://" ++ fpath
  | none =>
    out.1.rows = st.rows ∧
    (if ev.createErr then out.1 = st else ArtifactModel.readFile out.1.files fpath = none)

/-! ## Helper lemmas -/

theorem readFile_removeFile_self (fs : List (String × Bytes)) (p : String) :
    ArtifactModel.readFile (ArtifactModel.removeFile fs p) p = none := by
  induction fs with
  | nil => rfl
  | cons hd tl ih =>
    by_cases hp : hd.1 = p
    · simpa [ArtifactModel.removeFile, hp] using ih
    · simpa [ArtifactModel.removeFile, ArtifactModel.readFile, hp] using ih

theorem readFile_removeFile_ne (fs : List (String × Bytes)) (p q : String)
    (h : q ≠ p) : ArtifactModel.readFile (ArtifactModel.removeFile fs p) q
      = ArtifactModel.readFile fs q := by
  have hpq : p ≠ q := fun hh => h hh.symm
  induction fs with
  | nil => rfl
  | cons hd tl ih =>
    by_cases hp : hd.1 = p
    · simpa [ArtifactModel.removeFile, ArtifactModel.readFile, hp, hpq] using ih
    · by_cases hq : hd.1 = q
      · simp [ArtifactModel.removeFile, ArtifactModel.readFile, hp, hq, h]
      · simpa [ArtifactModel.removeFile, ArtifactModel.readFile, hp, hq] using ih

theorem readFile_writeFile_self (fs : List (String × Bytes)) (p : String) (c : Bytes) :
    ArtifactModel.readFile (ArtifactModel.writeFile fs p c) p = some c := by
  simp [ArtifactModel.readFile, ArtifactModel.writeFile]

theorem readFile_writeFile_ne (fs : List (String × Bytes)) (p q : String) (c : Bytes)
    (h : q ≠ p) : ArtifactModel.readFile (ArtifactModel.writeFile fs p c) q
      = ArtifactModel.readFile fs q := by
  have hpq : p ≠ q := fun hh => h hh.symm
  simp [ArtifactModel.readFile, ArtifactModel.writeFile, h, hpq, readFile_removeFile_ne fs p q h]

theorem Save_eq_some {hash : Bytes → String} {baseDir : String} {st : ArtifactModel.StoreState}
    {id runId name ct : String} {body : Bytes} {ev : ArtifactModel.SaveEvents}
    {st' : ArtifactModel.StoreState} {art : ArtifactModel.Artifact}
    (h : ArtifactModel.Save hash baseDir st id runId name ct body ev = (st', some art)) :
    st'.files = ArtifactModel.writeFile st.files (ArtifactModel.savePath baseDir runId id) body ∧
    st'.rows = art :: st.rows ∧
    art.sha256hex = hash body ∧
    art.sizeBytes = body.length ∧
    art.artifactId = id ∧
    art.uri = "file://" ++ ArtifactModel.savePath baseDir runId id := by
  unfold ArtifactModel.Save at h
  split at h
  · exact absurd (congrArg Prod.snd h) (by simp)
  · split at h
    · exact absurd (congrArg Prod.snd h) (by simp)
    · split at h
      · exact absurd (congrArg Prod.snd h) (by simp)
      · rw [Prod.mk.injEq] at h
        obtain ⟨hst, hart⟩ := h
        cases Option.some.inj hart
        exact ⟨by rw [← hst], by rw [← hst], rfl, rfl, rfl, rfl⟩

theorem saveExtras_preserves {hash : Bytes → String} {baseDir runId : String} :
    ∀ {extras : List ArtifactModel.ExtraSpec} {evs : List ArtifactModel.SaveEvents}
      {st st2 : ArtifactModel.StoreState} {ids : List String},
    ArtifactModel.saveExtras hash baseDir st runId extras evs = (st2, some ids) →
    ∀ q, (∀ e ∈ extras, ArtifactModel.savePath baseDir runId e.id ≠ q) →
    ArtifactModel.readFile st2.files q = ArtifactModel.readFile st.files q := by
  intro extras
  induction extras with
  | nil =>
    intro evs st st2 ids h q _
    unfold ArtifactModel.saveExtras at h
    rw [Prod.mk.injEq] at h
    rw [h.1]
  | cons e es ih =>
    intro evs st st2 ids h q hq
    unfold ArtifactModel.saveExtras at h
    split at h
    · exact absurd (congrArg Prod.snd h) (by simp)
    · rename_i st1 art hsave
      split at h
      · exact absurd (congrArg Prod.snd h) (by simp)
      · rename_i st2' ids' hrest
        rw [Prod.mk.injEq] at h
        obtain ⟨hst, _⟩ := h
        subst hst
        have h1 := (Save_eq_some hsave).1
        have hr := ih hrest q (fun e' he' => hq e' (List.mem_cons_of_mem _ he'))
        rw [hr, h1, readFile_writeFile_ne _ _ _ _ (fun hh => hq e (List.mem_cons_self e es) hh.symm)]

theorem qaLoop_spec (test lint : Nat → Option String) :
    ∀ fuel i, (RepairModel.qaLoop test lint i fuel).1 ≤ fuel ∧
      (RepairModel.qaLoop test lint i fuel).2.2.1 = 2 * (RepairModel.qaLoop test lint i fuel).1 := by
  intro fuel
  induction fuel with
  | zero => intro i; exact And.intro (Nat.le_refl 0) rfl
  | succ n ih =>
    intro i
    have hi := ih (i + 1)
    unfold RepairModel.qaLoop
    by_cases hb : ((test i).isNone && (lint i).isNone) = true
    · rw [if_pos hb]
      exact And.intro (by omega) rfl
    · rw [if_neg hb]
      dsimp only
      exact And.intro (by omega) (by omega)

theorem mem_dedupAux : ∀ (l seen : List String) (x : String), x ∈ l → x ∉ seen →
    x ∈ PolicyModel.dedupAux l seen := by
  intro l
  induction l with
  | nil => intro seen x hx; cases hx
  | cons y ys ih =>
    intro seen x hx hseen
    unfold PolicyModel.dedupAux
    by_cases hy : seen.contains y
    · rw [if_pos hy]
      rcases List.mem_cons.mp hx with rfl | hx'
      · exact absurd (List.elem_iff.mp hy) hseen
      · exact ih seen x hx' hseen
    · rw [if_neg hy]
      rcases List.mem_cons.mp hx with rfl | hx'
      · exact List.mem_cons_self _ _
      · by_cases hxy : x = y
        · subst hxy; exact List.mem_cons_self _ _
        · exact List.mem_cons_of_mem _
            (ih (y :: seen) x hx' (by simp [List.mem_cons, hxy, hseen]))

theorem mem_of_mem_dedupAux : ∀ (l seen : List String) (x : String),
    x ∈ PolicyModel.dedupAux l seen → x ∈ l := by
  intro l
  induction l with
  | nil => intro seen x hx; cases hx
  | cons y ys ih =>
    intro seen x hx
    unfold PolicyModel.dedupAux at hx
    by_cases hy : seen.contains y
    · rw [if_pos hy] at hx
      exact List.mem_cons_of_mem _ (ih seen x hx)
    · rw [if_neg hy] at hx
      rcases List.mem_cons.mp hx with rfl | hx'
      · exact List.mem_cons_self _ _
      · exact List.mem_cons_of_mem _ (ih (y :: seen) x hx')

theorem parsePrefixesCSV_mem_ne_empty (s x : String)
    (hx : x ∈ PolicyModel.parsePrefixesCSV s) : x ≠ "" := by
  unfold PolicyModel.parsePrefixesCSV at hx
  simpa using (List.mem_filter.mp hx).2

theorem goHasPfx_empty_of_ne (t : String) (ht : t ≠ "") : goHasPfx "" t = false := by
  cases t with
  | mk d =>
    cases d with
    | nil => exact absurd rfl ht
    | cons c cs => rfl

theorem append_dot_ne_empty (pre : String) : pre ++ "." ≠ "" := by
  cases pre with
  | mk d =>
    intro hcontra
    have : d ++ ['.'] = [] := congrArg String.data hcontra
    simp at this

theorem matchesForbiddenPfx_empty_path (pre : String) (hpre : pre ≠ "") :
    PolicyModel.matchesForbiddenPfx "" pre = false := by
  unfold PolicyModel.matchesForbiddenPfx
  by_cases h1 : goHasSfx pre "/"
  · rw [if_pos h1]; exact goHasPfx_empty_of_ne pre hpre
  · rw [if_neg h1]
    by_cases h2 : goHasPfx pre "."
    · rw [if_pos h2]
      rw [goHasPfx_empty_of_ne _ (append_dot_ne_empty pre)]
      have : ("" == pre) = false := beq_eq_false_iff_ne.mpr (fun hh => hpre hh.symm)
      rw [this]
      rfl
    · rw [if_neg h2]; exact goHasPfx_empty_of_ne pre hpre

theorem find?_congr_fun {α : Type} (p q : α → Bool) (h : ∀ x, p x = q x) :
    ∀ l : List α, l.find? p = l.find? q := by
  intro l
  induction l with
  | nil => rfl
  | cons hd tl ih =>
    cases hq : q hd with
    | true => rw [List.find?_cons_of_pos _ (by rw [h hd]; exact hq),
        List.find?_cons_of_pos _ hq]
    | false =>
      rw [List.find?_cons_of_neg _ (by simp [h hd, hq]),
        List.find?_cons_of_neg _ (by simp [hq]), ih]

theorem getApproval_update {dbs : ApprovalModel.ApprovalDB} {approvalID : String}
    {status : String} {approvedAt : Option Nat} {approver : Option String}
    {a : ApprovalModel.Approval}
    (h : ApprovalModel.GetApproval dbs approvalID = some a) :
    ApprovalModel.GetApproval
        (ApprovalModel.UpdateApprovalDecision dbs approvalID status approvedAt approver)
        approvalID
      = some { a with status := status, approvedAt := approvedAt, approver := approver } := by
  unfold ApprovalModel.GetApproval ApprovalModel.UpdateApprovalDecision at *
  rw [List.find?_map]
  have hpred : ∀ x : ApprovalModel.Approval,
      ((fun b : ApprovalModel.Approval => decide (b.approvalId = approvalID)) ∘
        (fun b : ApprovalModel.Approval =>
          if b.approvalId = approvalID then
            { b with status := status, approvedAt := approvedAt, approver := approver }
          else b)) x
      = decide (x.approvalId = approvalID) := by
    intro x
    by_cases hx : x.approvalId = approvalID
    · simp [hx]
    · simp [hx]
  rw [find?_congr_fun _ _ hpred, h]
  have ha : a.approvalId = approvalID := by
    have := List.find?_some h
    simpa using this
  simp [ha]

/-! ## Claim theorems -/

/-- C6 (counterexample): the claim's biconditionals fail at
`total = replayed = 2, errors = 0` — there `errors = total - replayed`, so the
claim's fail-iff direction demands `"fail"`, but the code returns `"ok"`
(`errCount <= 0` is checked first). -/
theorem deriveBatchStatus_fail_iff_fails_when_all_replayed :
    ¬ ((BatchModel.DeriveBatchStatus 2 2 0 = "fail") ↔ (0 : Int) = 2 - 2) := by
  decide

/-- C6 (amended): under the batch counters' constraints
(`0 ≤ errors`, `0 ≤ replayed`, `replayed + errors ≤ total`),
`DeriveBatchStatus` returns `"ok"` iff `errors = 0`, `"fail"` iff
`errors > 0` and `errors = total - replayed`, and `"partial"` iff
`errors > 0` and `errors ≠ total - replayed`. -/
theorem deriveBatchStatus_characterization (total replayed errCount : Int)
    (h0 : 0 ≤ errCount) (h1 : 0 ≤ replayed) (h2 : replayed + errCount ≤ total) :
    (BatchModel.DeriveBatchStatus total replayed errCount = "ok" ↔ errCount = 0) ∧
    (BatchModel.DeriveBatchStatus total replayed errCount = "fail" ↔
      0 < errCount ∧ errCount = total - replayed) ∧
    (BatchModel.DeriveBatchStatus total replayed errCount = "partial" ↔
      0 < errCount ∧ errCount ≠ total - replayed) := by
  unfold BatchModel.DeriveBatchStatus
  by_cases hz : errCount ≤ 0
  · rw [if_pos hz]
    have he : errCount = 0 := le_antisymm hz h0
    refine ⟨⟨fun _ => he, fun _ => rfl⟩, ?_, ?_⟩
    · exact ⟨fun hh => absurd hh (by decide), fun hh => absurd he (by omega)⟩
    · exact ⟨fun hh => absurd hh (by decide), fun hh => absurd he (by omega)⟩
  · rw [if_neg hz]
    by_cases hf : errCount = total - replayed
    · rw [if_pos hf]
      refine ⟨⟨fun hh => absurd hh (by decide), fun hh => absurd hh (by omega)⟩, ?_, ?_⟩
      · exact ⟨fun _ => ⟨by omega, hf⟩, fun _ => rfl⟩
      · exact ⟨fun hh => absurd hh (by decide), fun hh => absurd hf hh.2⟩
    · rw [if_neg hf]
      refine ⟨⟨fun hh => absurd hh (by decide), fun hh => absurd hh (by omega)⟩, ?_, ?_⟩
      · exact ⟨fun hh => absurd hh (by decide), fun hh => absurd hh.2 hf⟩
      · exact ⟨fun _ => ⟨by omega, hf⟩, fun _ => rfl⟩

/-- Witness for the amended C6 statement at `(3, 1, 2)`. -/
theorem deriveBatchStatus_characterization_witness :
    BatchModel.DeriveBatchStatus 3 1 2 = "fail" :=
  (deriveBatchStatus_characterization 3 1 2 (by decide) (by decide) (by decide)).2.1.mpr
    ⟨by decide, by decide⟩

/-- C8 (counterexample): the raw paths `/` and `/..` resolve to the
filesystem root, yet `CheckPaths` reports no violation at all — they
canonicalize to the empty string, which escapes the `cleaned == "."`
root check (the leading `/` was stripped first). -/
theorem checkPaths_root_paths_pass :
    PolicyModel.CheckPaths (PolicyModel.NewPolicy "" "") ["/"] = none ∧
    PolicyModel.CheckPaths (PolicyModel.NewPolicy "" "") ["/.."] = none ∧
    PolicyModel.canonicalizePath "/" = .ok "" ∧
    PolicyModel.canonicalizePath "/.." = .ok "" :=
  ⟨rfl, rfl, rfl, rfl⟩

/-- C5 (code bug): the `Idempotency-Key` replay conflict is raised as the
typed `IdempotencyConflictError`, but `MapError`'s coded-error switch has no
`idempotency_key_conflict` case, so the handler's `writeMappedErr(err, 500)`
falls through to `internal_error`/500 — while `error_map_test.go` in the same
package expects `idempotency_key_conflict`/409 for exactly this error. -/
theorem idempotency_conflict_maps_to_internal_error :
    ErrMapModel.MapError (some ErrMapModel.IdempotencyConflictError) 500
      = { code := "internal_error"
          message := "idempotency key reused with different request payload"
          httpStatus := 500 } ∧
    IssueModel.handleCreateIssue (fun _ => []) marshalReqByTitle (fun _ => []) (fun _ => "h")
        stateC5 true "octo/demo" "r1"
        { title := "B", body := "b", labels := [], dryRun := false } "k1"
        (.ok { number := 2, htmlUrl := "u2" }) "a3" "a4" "t2"
      = (stateC5, .httpError 500 "internal_error", false) :=
  ⟨rfl, rfl⟩

/-- C1 (counterexample): resolving an already-`approved` approval again with
`rejected` is not a no-op — the handler never inspects the current status and
`UpdateApprovalDecision` updates unconditionally, so the row's status,
approver and approved-at are all overwritten. -/
theorem resolveApproval_overwrites_resolved_row :
    ApprovalModel.handleResolveApproval dbA true "r1" "ap1" "rejected" "bob" 9 "d2"
      = .ok (⟨[{ approvalA with status := "rejected", approvedAt := some 9, approver := some "bob" }],
              [{ decisionId := "d2", runId := "r1", actor := "bob", decisionType := "approval_rejected", createdAt := 9 }]⟩,
             some { approvalA with status := "rejected", approvedAt := some 9, approver := some "bob" })
    ∧ approvalA.status = "approved" :=
  ⟨rfl, rfl⟩

/-- C2 (counterexample): a `code.branch_pr.create` request whose approval is
missing is rejected with HTTP 404 and body code `not_found` — the error code
`approval_not_approved` does not exist anywhere in the implementation. -/
theorem branchPR_missing_approval_error_code :
    GateModel.handleCodeBranchPR policyA (some runA) true none "r1" branchBodyA none none true
      = ⟨.err 404 "not_found", false, false⟩ ∧
    "not_found" ≠ "approval_not_approved" :=
  ⟨rfl, by decide⟩

/-- C7: for every `PATH_POLICY_FORBIDDEN_PREFIXES` / approval configuration,
each of `.github/x`, `.git/x`, `secrets/x`, `.env`, `.env.local` is denied
with `path_policy_forbidden`; under the built-in-only policy `.environment`
passes; the built-in prefixes are members of the policy after every
configuration; and a dot-prefix without a trailing slash matches exactly the
file itself or any name extending it with a `.`. -/
theorem builtin_forbidden_prefixes_irremovable
    (repoCSV toolCSV forbiddenCSV approvalCSV : String) :
    ((PolicyModel.CheckPaths
        (PolicyModel.SetPathPolicy (PolicyModel.NewPolicy repoCSV toolCSV) forbiddenCSV approvalCSV)
        [".github/x"]).map (·.code) = some .pathForbidden) ∧
    ((PolicyModel.CheckPaths
        (PolicyModel.SetPathPolicy (PolicyModel.NewPolicy repoCSV toolCSV) forbiddenCSV approvalCSV)
        [".git/x"]).map (·.code) = some .pathForbidden) ∧
    ((PolicyModel.CheckPaths
        (PolicyModel.SetPathPolicy (PolicyModel.NewPolicy repoCSV toolCSV) forbiddenCSV approvalCSV)
        ["secrets/x"]).map (·.code) = some .pathForbidden) ∧
    ((PolicyModel.CheckPaths
        (PolicyModel.SetPathPolicy (PolicyModel.NewPolicy repoCSV toolCSV) forbiddenCSV approvalCSV)
        [".env"]).map (·.code) = some .pathForbidden) ∧
    ((PolicyModel.CheckPaths
        (PolicyModel.SetPathPolicy (PolicyModel.NewPolicy repoCSV toolCSV) forbiddenCSV approvalCSV)
        [".env.local"]).map (·.code) = some .pathForbidden) ∧
    (PolicyModel.CheckPaths
        (PolicyModel.SetPathPolicy (PolicyModel.NewPolicy repoCSV toolCSV) "" "")
        [".environment"] = none) ∧
    (∀ b ∈ PolicyModel.builtinForbiddenPrefixes,
      b ∈ (PolicyModel.SetPathPolicy (PolicyModel.NewPolicy repoCSV toolCSV)
            forbiddenCSV approvalCSV).forbiddenPathPrefixes) ∧
    (∀ path pre : String, goHasPfx pre "." = true → goHasSfx pre "/" = false →
      (PolicyModel.matchesForbiddenPfx path pre = true ↔
        path = pre ∨ goHasPfx path (pre ++ ".") = true)) := by
  refine ⟨rfl, rfl, rfl, rfl, rfl, rfl, ?_, ?_⟩
  · intro b hb
    exact mem_dedupAux _ [] b (List.mem_append_left _ hb) (List.not_mem_nil b)
  · intro path pre h1 h2
    unfold PolicyModel.matchesForbiddenPfx
    rw [if_neg (by simp [h2]), if_pos h1]
    simp [Bool.or_eq_true, beq_iff_eq]

/-- Witness for C7 with a configuration that tries (and fails) to matter:
`.github/x` is still denied as forbidden, and the dot-prefix rule applied to
`.env` matches `.env.local`. -/
theorem builtin_forbidden_prefixes_irremovable_witness :
    ((PolicyModel.CheckPaths
        (PolicyModel.SetPathPolicy (PolicyModel.NewPolicy "" "") "custom/,.env" "db/init/")
        [".github/x"]).map (·.code) = some .pathForbidden) ∧
    PolicyModel.matchesForbiddenPfx ".env.local" ".env" = true := by
  have h := builtin_forbidden_prefixes_irremovable "" "" "custom/,.env" "db/init/"
  exact ⟨h.1, (h.2.2.2.2.2.2.2 ".env.local" ".env" (by decide) (by decide)).mpr
    (Or.inr (by decide))⟩

/-- C8 (amended): a canonical form equal to `..`, starting with `../`, or
collapsing to `.` (e.g. the raw path `.`) is rejected with
`path_policy_traversal` under any policy; but the raw paths `/` and `/..`,
which resolve to the filesystem root, canonicalize to the empty string and
pass `CheckPaths` with no violation, whatever forbidden prefixes are
configured. -/
theorem checkPaths_traversal_amended (p : PolicyModel.Policy)
    (forbiddenCSV approvalCSV : String) :
    (PolicyModel.CheckPaths p [".."]
      = some ⟨.pathTraversal, "..", "path traversal detected"⟩) ∧
    (PolicyModel.CheckPaths p ["../a"]
      = some ⟨.pathTraversal, "../a", "path traversal detected"⟩) ∧
    (PolicyModel.CheckPaths p ["."]
      = some ⟨.pathTraversal, ".", "path resolves to root"⟩) ∧
    (PolicyModel.CheckPaths
      (PolicyModel.SetPathPolicy (PolicyModel.NewPolicy "" "") forbiddenCSV approvalCSV)
      ["/"] = none) ∧
    (PolicyModel.CheckPaths
      (PolicyModel.SetPathPolicy (PolicyModel.NewPolicy "" "") forbiddenCSV approvalCSV)
      ["/.."] = none) := by
  have hfind : ∀ rawRoot : String,
      (PolicyModel.SetPathPolicy (PolicyModel.NewPolicy "" "") forbiddenCSV
          approvalCSV).forbiddenPathPrefixes.find?
        (fun pre => PolicyModel.matchesForbiddenPfx "" pre) = none := by
    intro _rawRoot
    rw [List.find?_eq_none]
    intro pre hpre
    have hmem := mem_of_mem_dedupAux _ _ _ hpre
    have hne : pre ≠ "" := by
      rcases List.mem_append.mp hmem with hb | hp
      · simp only [PolicyModel.builtinForbiddenPrefixes, List.mem_cons,
          List.not_mem_nil, or_false] at hb
        rcases hb with rfl | rfl | rfl | rfl <;> decide
      · exact parsePrefixesCSV_mem_ne_empty _ _ hp
    simp [matchesForbiddenPfx_empty_path pre hne]
  refine ⟨rfl, rfl, rfl, ?_, ?_⟩
  · show (match (PolicyModel.SetPathPolicy (PolicyModel.NewPolicy "" "") forbiddenCSV
          approvalCSV).forbiddenPathPrefixes.find?
            (fun pre => PolicyModel.matchesForbiddenPfx "" pre) with
        | some pre =>
          some (⟨.pathForbidden, "/", "matched forbidden prefix \"" ++ pre ++ "\""⟩ :
            PolicyModel.PolicyViolation)
        | none => none) = none
    rw [hfind "/"]
  · show (match (PolicyModel.SetPathPolicy (PolicyModel.NewPolicy "" "") forbiddenCSV
          approvalCSV).forbiddenPathPrefixes.find?
            (fun pre => PolicyModel.matchesForbiddenPfx "" pre) with
        | some pre =>
          some (⟨.pathForbidden, "/..", "matched forbidden prefix \"" ++ pre ++ "\""⟩ :
            PolicyModel.PolicyViolation)
        | none => none) = none
    rw [hfind "/.."]

/-- C1 (amended): `resolveApproval` on an existing, run-scoped approval with
a non-blank approver always succeeds and unconditionally overwrites the row's
status, approved-at and approver — whatever the row's current status — and
appends an `approval_approved`/`approval_rejected` decision.  Terminality of
`approved`/`rejected` is not enforced by the handler or the database layer;
callers gate protected writes by re-reading `status == "approved"`. -/
theorem resolveApproval_always_overwrites
    (dbs : ApprovalModel.ApprovalDB) (runID approvalID status approverBody : String)
    (now : Nat) (decisionId : String) (a : ApprovalModel.Approval)
    (hfound : ApprovalModel.GetApproval dbs approvalID = some a)
    (hrun : a.runId = runID)
    (happ : ¬ goTrimSpace approverBody = "") :
    ∃ dbs' : ApprovalModel.ApprovalDB,
      ApprovalModel.handleResolveApproval dbs true runID approvalID status approverBody now decisionId
        = .ok (dbs',
            some { a with status := status, approvedAt := some now, approver := some approverBody }) ∧
      dbs'.approvals = (ApprovalModel.UpdateApprovalDecision dbs approvalID status
        (some now) (some approverBody)).approvals ∧
      dbs'.decisions = dbs.decisions ++
        [{ decisionId := decisionId, runId := runID, actor := approverBody,
           decisionType := (if status = "approved" then "approval_approved" else "approval_rejected"),
           createdAt := now }] := by
  have hGet := @getApproval_update dbs approvalID status (some now) (some approverBody) a hfound
  unfold ApprovalModel.handleResolveApproval
  rw [if_neg (by simp), hfound]
  dsimp only
  rw [if_neg (by simp [hrun]), if_neg happ]
  have hsame : ApprovalModel.GetApproval
      (ApprovalModel.InsertDecision
        (ApprovalModel.UpdateApprovalDecision dbs approvalID status (some now) (some approverBody))
        { decisionId := decisionId, runId := runID, actor := approverBody,
          decisionType := (if status = "approved" then "approval_approved" else "approval_rejected"),
          createdAt := now }) approvalID
      = some { a with status := status, approvedAt := some now, approver := some approverBody } := by
    rw [show ∀ d, ApprovalModel.GetApproval
        (ApprovalModel.InsertDecision
          (ApprovalModel.UpdateApprovalDecision dbs approvalID status (some now) (some approverBody)) d)
        approvalID
      = ApprovalModel.GetApproval
          (ApprovalModel.UpdateApprovalDecision dbs approvalID status (some now) (some approverBody))
          approvalID from fun _ => rfl]
    exact hGet
  refine ⟨ApprovalModel.InsertDecision
      (ApprovalModel.UpdateApprovalDecision dbs approvalID status (some now) (some approverBody))
      { decisionId := decisionId, runId := runID, actor := approverBody,
        decisionType := (if status = "approved" then "approval_approved" else "approval_rejected"),
        createdAt := now }, ?_, rfl, rfl⟩
  unfold ApprovalModel.ResolveApproval
  dsimp only
  rw [hsame]

/-- Witness for the amended C1 statement: re-resolving the already-approved
`approvalA` to `rejected` overwrites the row. -/
theorem resolveApproval_always_overwrites_witness :
    ∃ dbs' : ApprovalModel.ApprovalDB,
      ApprovalModel.handleResolveApproval dbA true "r1" "ap1" "rejected" "bob" 9 "d2"
        = .ok (dbs',
            some { approvalA with status := "rejected", approvedAt := some 9, approver := some "bob" }) ∧
      dbs'.approvals = (ApprovalModel.UpdateApprovalDecision dbA "ap1" "rejected"
        (some 9) (some "bob")).approvals ∧
      dbs'.decisions = dbA.decisions ++
        [{ decisionId := "d2", runId := "r1", actor := "bob",
           decisionType := (if "rejected" = "approved" then "approval_approved" else "approval_rejected"),
           createdAt := 9 }] :=
  resolveApproval_always_overwrites dbA "r1" "ap1" "rejected" "bob" 9 "d2" approvalA rfl rfl
    (by decide)

/-- C2 (amended): for both protected tools, a missing or foreign-run approval
is rejected with HTTP 404 / body code `not_found`, and a non-`approved` one
with HTTP 403 / body code `forbidden` (not with a code named
`approval_not_approved`, which does not exist); in every such case the
rejection happens before any external collaborator is reached — the git
runner is not executed, no QA run happens, no rollback, and no PR call. -/
theorem approval_gate_rejects_before_external_calls
    (policy : PolicyModel.Policy) (run : GateModel.Run) (runId : String)
    (bbody : GateModel.BranchPRBody) (rbody : RepairModel.RepairBody)
    (approval : Option ApprovalModel.Approval)
    (codeErr prErr : Option ErrMapModel.GoErr) (auditOk : Bool)
    (oracles : RepairModel.RepairOracles)
    (hbTool : PolicyModel.CheckTool policy "code.branch_pr.create" = none)
    (hrTool : PolicyModel.CheckTool policy "code.repair_loop" = none)
    (hbId : ¬ goTrimSpace bbody.approvalId = "")
    (hrId : ¬ goTrimSpace rbody.approvalId = "")
    (hrIter : rbody.maxIterations ≤ 3)
    (hbad : approval = none ∨
      ∃ a, approval = some a ∧ (a.runId ≠ runId ∨ a.status ≠ "approved")) :
    (GateModel.handleCodeBranchPR policy (some run) true approval runId bbody
        codeErr prErr auditOk).codeInvoked = false ∧
    (GateModel.handleCodeBranchPR policy (some run) true approval runId bbody
        codeErr prErr auditOk).ghInvoked = false ∧
    ((GateModel.handleCodeBranchPR policy (some run) true approval runId bbody
        codeErr prErr auditOk).response = .err 404 "not_found" ∨
     (GateModel.handleCodeBranchPR policy (some run) true approval runId bbody
        codeErr prErr auditOk).response = .err 403 "forbidden") ∧
    (RepairModel.handleCodeRepairLoop policy (some run) true true approval runId rbody
        oracles).codeExecInvoked = false ∧
    (RepairModel.handleCodeRepairLoop policy (some run) true true approval runId rbody
        oracles).qaCalls = 0 ∧
    (RepairModel.handleCodeRepairLoop policy (some run) true true approval runId rbody
        oracles).rollbackInvoked = false ∧
    (RepairModel.handleCodeRepairLoop policy (some run) true true approval runId rbody
        oracles).prInvoked = false ∧
    ((RepairModel.handleCodeRepairLoop policy (some run) true true approval runId rbody
        oracles).response = .err 404 "not_found" ∨
     (RepairModel.handleCodeRepairLoop policy (some run) true true approval runId rbody
        oracles).response = .err 403 "forbidden") := by
  have hm3 : ¬ ((if rbody.maxIterations ≤ 0 then (1 : Int) else rbody.maxIterations) > 3) := by
    by_cases hz : rbody.maxIterations ≤ 0
    · rw [if_pos hz]; omega
    · rw [if_neg hz]; omega
  rcases hbad with rfl | ⟨a, rfl, hcase⟩
  · have hbeq : GateModel.handleCodeBranchPR policy (some run) true none runId bbody
        codeErr prErr auditOk = ⟨.err 404 (HttpModel.writeErrCode 404), false, false⟩ := by
      simp [GateModel.handleCodeBranchPR, hbTool, hbId]
    have hreq : RepairModel.handleCodeRepairLoop policy (some run) true true none runId rbody
        oracles = ⟨.err 404 (HttpModel.writeErrCode 404), false, 0, false, false, none, []⟩ := by
      simp [RepairModel.handleCodeRepairLoop, hrTool, hrId, hm3]
    rw [hbeq, hreq]
    exact ⟨rfl, rfl, Or.inl rfl, rfl, rfl, rfl, rfl, Or.inl rfl⟩
  · by_cases hfr : a.runId = runId
    · have hst : a.status ≠ "approved" := by
        rcases hcase with hcase | hcase
        · exact absurd hfr hcase
        · exact hcase
      have hbeq : GateModel.handleCodeBranchPR policy (some run) true (some a) runId bbody
          codeErr prErr auditOk = ⟨.err 403 (HttpModel.writeErrCode 403), false, false⟩ := by
        simp [GateModel.handleCodeBranchPR, hbTool, hbId, hfr, hst]
      have hreq : RepairModel.handleCodeRepairLoop policy (some run) true true (some a) runId rbody
          oracles = ⟨.err 403 (HttpModel.writeErrCode 403), false, 0, false, false, none, []⟩ := by
        simp [RepairModel.handleCodeRepairLoop, hrTool, hrId, hm3, hfr, hst]
      rw [hbeq, hreq]
      exact ⟨rfl, rfl, Or.inr rfl, rfl, rfl, rfl, rfl, Or.inr rfl⟩
    · have hbeq : GateModel.handleCodeBranchPR policy (some run) true (some a) runId bbody
          codeErr prErr auditOk = ⟨.err 404 (HttpModel.writeErrCode 404), false, false⟩ := by
        simp [GateModel.handleCodeBranchPR, hbTool, hbId, hfr]
      have hreq : RepairModel.handleCodeRepairLoop policy (some run) true true (some a) runId rbody
          oracles = ⟨.err 404 (HttpModel.writeErrCode 404), false, 0, false, false, none, []⟩ := by
        simp [RepairModel.handleCodeRepairLoop, hrTool, hrId, hm3, hfr]
      rw [hbeq, hreq]
      exact ⟨rfl, rfl, Or.inl rfl, rfl, rfl, rfl, rfl, Or.inl rfl⟩

/-- Witness for the amended C2 statement: missing approval on both tools. -/
theorem approval_gate_rejects_before_external_calls_witness :
    (GateModel.handleCodeBranchPR policyA (some runA) true none "r1" branchBodyA
        none none true).codeInvoked = false ∧
    (GateModel.handleCodeBranchPR policyA (some runA) true none "r1" branchBodyA
        none none true).ghInvoked = false ∧
    ((GateModel.handleCodeBranchPR policyA (some runA) true none "r1" branchBodyA
        none none true).response = .err 404 "not_found" ∨
     (GateModel.handleCodeBranchPR policyA (some runA) true none "r1" branchBodyA
        none none true).response = .err 403 "forbidden") ∧
    (RepairModel.handleCodeRepairLoop policyA (some runA) true true none "r1" repairBodyA
        repairOraclesFailA).codeExecInvoked = false ∧
    (RepairModel.handleCodeRepairLoop policyA (some runA) true true none "r1" repairBodyA
        repairOraclesFailA).qaCalls = 0 ∧
    (RepairModel.handleCodeRepairLoop policyA (some runA) true true none "r1" repairBodyA
        repairOraclesFailA).rollbackInvoked = false ∧
    (RepairModel.handleCodeRepairLoop policyA (some runA) true true none "r1" repairBodyA
        repairOraclesFailA).prInvoked = false ∧
    ((RepairModel.handleCodeRepairLoop policyA (some runA) true true none "r1" repairBodyA
        repairOraclesFailA).response = .err 404 "not_found" ∨
     (RepairModel.handleCodeRepairLoop policyA (some runA) true true none "r1" repairBodyA
        repairOraclesFailA).response = .err 403 "forbidden") :=
  approval_gate_rejects_before_external_calls policyA runA "r1" branchBodyA repairBodyA
    none none none true repairOraclesFailA rfl rfl (by decide) (by decide) (by decide)
    (Or.inl rfl)

/-- C4: `ArtifactStore.Save` is atomic — on success the metadata row is
inserted and the blob at the recorded path holds exactly the body, whose hash
is the row's digest; on a copy/close error or a metadata-insert failure the
(partial or complete) blob file is deleted before returning, so no blob is
left without a row (a failed `os.Create` writes nothing to begin with). -/
theorem save_atomicity (hash : Bytes → String) (baseDir : String)
    (st : ArtifactModel.StoreState) (id runId name contentType : String)
    (body : Bytes) (ev : ArtifactModel.SaveEvents) :
    SaveOutcomeInv hash baseDir st id runId name contentType body ev := by
  unfold SaveOutcomeInv ArtifactModel.Save
  by_cases h1 : ev.createErr
  · rw [if_pos h1]
    dsimp only
    exact ⟨rfl, by rw [if_pos h1]⟩
  · rw [if_neg h1]
    cases hc : ev.copyErr with
    | some writtenSoFar =>
      dsimp only
      refine ⟨rfl, ?_⟩
      rw [if_neg h1]
      exact readFile_removeFile_self _ _
    | none =>
      by_cases h2 : ev.insertErr
      · rw [if_pos h2]
        dsimp only
        refine ⟨rfl, ?_⟩
        rw [if_neg h1]
        exact readFile_removeFile_self _ _
      · rw [if_neg h2]
        dsimp only
        exact ⟨rfl, readFile_writeFile_self _ _ _, rfl, rfl, rfl⟩

/-- C3: when `AuditService.Record` succeeds, the inserted ToolCall's
`evidence_hash` is the hash of the request JSON concatenated with the
response JSON, and those are exactly the bytes stored in the two artifact
blobs the row references (artifact ids are fresh UUIDs, stated here as path
distinctness hypotheses). -/
theorem record_evidence_law
    (hash : Bytes → String) (baseDir : String) (policy : PolicyModel.Policy)
    (st : ArtifactModel.AuditState) (tcId reqId respId runId toolName : String)
    (idemKey : Option String) (reqJSON respJSON : Bytes) (upstreamErr : Bool)
    (extras : List ArtifactModel.ExtraSpec) (evs : ArtifactModel.RecordEvents)
    (st' : ArtifactModel.AuditState) (tc : ArtifactModel.ToolCallRow) (extraIds : List String)
    (h : ArtifactModel.Record hash baseDir policy st tcId reqId respId runId toolName
      idemKey reqJSON respJSON upstreamErr extras evs = (st', some (tc, extraIds)))
    (hne : ArtifactModel.savePath baseDir runId reqId ≠ ArtifactModel.savePath baseDir runId respId)
    (hex : ∀ e ∈ extras,
      ArtifactModel.savePath baseDir runId e.id ≠ ArtifactModel.savePath baseDir runId reqId ∧
      ArtifactModel.savePath baseDir runId e.id ≠ ArtifactModel.savePath baseDir runId respId) :
    tc.evidenceHash = hash (reqJSON ++ respJSON) ∧
    ArtifactModel.readFile st'.store.files (ArtifactModel.savePath baseDir runId reqId)
      = some reqJSON ∧
    ArtifactModel.readFile st'.store.files (ArtifactModel.savePath baseDir runId respId)
      = some respJSON ∧
    tc.requestArtifactId = some reqId ∧
    tc.responseArtifactId = some respId ∧
    tc.toolName = toolName ∧ tc.runId = runId ∧ tc.idempotencyKey = idemKey := by
  unfold ArtifactModel.Record at h
  split at h
  · exact absurd (congrArg Prod.snd h) (by simp)
  · split at h
    · exact absurd (congrArg Prod.snd h) (by simp)
    · rename_i st1 reqArt hreq
      split at h
      · exact absurd (congrArg Prod.snd h) (by simp)
      · rename_i st2 respArt hresp
        split at h
        · exact absurd (congrArg Prod.snd h) (by simp)
        · rename_i st3 ids hextr
          split at h
          all_goals dsimp only at h
          all_goals split at h
          all_goals first
            | (rw [Prod.mk.injEq] at h
               obtain ⟨hst, hsome⟩ := h
               have hpair := Option.some.inj hsome
               rw [Prod.mk.injEq] at hpair
               obtain ⟨htc, hids⟩ := hpair
               subst hst
               have hq1 := Save_eq_some hreq
               have hq2 := Save_eq_some hresp
               have hpres := saveExtras_preserves hextr
               refine ⟨?_, ?_, ?_, ?_, ?_, ?_, ?_, ?_⟩
               · rw [← htc]
               · rw [show ({ store := st3, toolCalls := _ :: st.toolCalls } :
                     ArtifactModel.AuditState).store.files = st3.files from rfl]
                 rw [hpres _ (fun e he => (hex e he).1), hq2.1,
                   readFile_writeFile_ne _ _ _ _ hne, hq1.1, readFile_writeFile_self]
               · rw [show ({ store := st3, toolCalls := _ :: st.toolCalls } :
                     ArtifactModel.AuditState).store.files = st3.files from rfl]
                 rw [hpres _ (fun e he => (hex e he).2), hq2.1, readFile_writeFile_self]
               · rw [← htc]
                 show some reqArt.artifactId = some reqId
                 rw [hq1.2.2.2.2.1]
               · rw [← htc]
                 show some respArt.artifactId = some respId
                 rw [hq2.2.2.2.2.1]
               · rw [← htc]
               · rw [← htc]
               · rw [← htc])
            | simp at h

theorem repairCore_spec (body : RepairModel.RepairBody) (oracles : RepairModel.RepairOracles)
    (m : Int) (hcode : oracles.codeExecErr = none) (hdry : body.dryRun = false) :
    ∃ res : RepairModel.RepairResultMap,
      (RepairModel.repairCore body oracles m).result = some res ∧
      (RepairModel.repairCore body oracles m).qaCalls = 2 * res.iterationsRun ∧
      res.iterationsRun ≤ m.toNat ∧
      (res.qaPassed = false →
        (RepairModel.repairCore body oracles m).rollbackInvoked = true ∧
        res.rollbackPlannedCommands = oracles.rollbackPlanned ∧
        res.rollbackError = oracles.rollbackErr ∧
        RepairModel.RepairDecision.failed res ∈ (RepairModel.repairCore body oracles m).decisions) := by
  have hql := qaLoop_spec oracles.qaTestErr oracles.qaLintErr m.toNat 1
  by_cases hq : (RepairModel.qaLoop oracles.qaTestErr oracles.qaLintErr 1 m.toNat).2.1 = true
  · cases hpr : oracles.prResult with
    | ok pr =>
      unfold RepairModel.repairCore
      rw [hcode, hdry]
      simp only [Option.isNone_none, Bool.not_false, Bool.and_self, Bool.true_and, hq,
        Bool.not_true, Bool.false_and, Bool.and_false, hpr, reduceIte,
        Bool.false_eq_true, if_false, Option.isSome_some, Option.isSome_none, Option.isNone_some]
      refine ⟨_, rfl, ?_, ?_, ?_⟩
      · dsimp only
        omega
      · dsimp only
        exact hql.1
      · intro hc
        simp at hc
    | error e =>
      unfold RepairModel.repairCore
      rw [hcode, hdry]
      simp only [Option.isNone_none, Bool.not_false, Bool.and_self, Bool.true_and, hq,
        Bool.not_true, Bool.false_and, Bool.and_false, hpr, reduceIte,
        Bool.false_eq_true, if_false, Option.isSome_some, Option.isSome_none, Option.isNone_some]
      refine ⟨_, rfl, ?_, ?_, ?_⟩
      · dsimp only
        omega
      · dsimp only
        exact hql.1
      · intro hc
        simp at hc
  · have hq' : (RepairModel.qaLoop oracles.qaTestErr oracles.qaLintErr 1 m.toNat).2.1 = false :=
      Bool.eq_false_iff.mpr hq
    unfold RepairModel.repairCore
    rw [hcode, hdry]
    simp only [Option.isNone_none, Bool.not_false, Bool.and_self, Bool.true_and, hq',
      Bool.not_true, Bool.false_and, Bool.and_false, Option.isNone_some, reduceIte,
      Bool.false_eq_true, if_false, Option.isSome_some, Option.isSome_none]
    refine ⟨_, rfl, ?_, ?_, ?_⟩
    · dsimp only
      omega
    · dsimp only
      exact hql.1
    · intro _
      refine ⟨?_, ?_, ?_, ?_⟩ <;> first | rfl | trivial | simp

/-- C9: a `code.repair_loop` request that passes validation with
`max_iterations = N` and enters the QA loop makes exactly one test and one
lint call per executed iteration — `qaCalls = 2 × iterations_run ≤ 2 × N` —
and when QA never passes, the rollback collaborator is invoked and its
outcome (planned commands / error) is recorded in the result map, which is
itself the payload of the appended `repair_loop_failed` decision. -/
theorem repair_loop_bound_and_rollback
    (policy : PolicyModel.Policy) (run : GateModel.Run) (runId : String)
    (rbody : RepairModel.RepairBody) (a : ApprovalModel.Approval)
    (oracles : RepairModel.RepairOracles)
    (hTool : PolicyModel.CheckTool policy "code.repair_loop" = none)
    (hId : ¬ goTrimSpace rbody.approvalId = "")
    (hIter1 : 1 ≤ rbody.maxIterations) (hIter3 : rbody.maxIterations ≤ 3)
    (hrun : a.runId = runId) (hstatus : a.status = "approved")
    (hpaths : PolicyModel.CheckPaths policy rbody.files = none)
    (hcode : oracles.codeExecErr = none) (hdry : rbody.dryRun = false) :
    ∃ res : RepairModel.RepairResultMap,
      (RepairModel.handleCodeRepairLoop policy (some run) true true (some a) runId rbody
        oracles).result = some res ∧
      (RepairModel.handleCodeRepairLoop policy (some run) true true (some a) runId rbody
        oracles).qaCalls = 2 * res.iterationsRun ∧
      (RepairModel.handleCodeRepairLoop policy (some run) true true (some a) runId rbody
        oracles).qaCalls ≤ 2 * rbody.maxIterations.toNat ∧
      (res.qaPassed = false →
        (RepairModel.handleCodeRepairLoop policy (some run) true true (some a) runId rbody
          oracles).rollbackInvoked = true ∧
        res.rollbackPlannedCommands = oracles.rollbackPlanned ∧
        res.rollbackError = oracles.rollbackErr ∧
        RepairModel.RepairDecision.failed res ∈
          (RepairModel.handleCodeRepairLoop policy (some run) true true (some a) runId rbody
            oracles).decisions) := by
  have hm : (if rbody.maxIterations ≤ 0 then (1 : Int) else rbody.maxIterations)
      = rbody.maxIterations := if_neg (by omega)
  have heq : RepairModel.handleCodeRepairLoop policy (some run) true true (some a) runId rbody
      oracles = RepairModel.repairCore rbody oracles rbody.maxIterations := by
    simp [RepairModel.handleCodeRepairLoop, hTool, hId, hm, hrun, hstatus, hpaths,
      (by omega : ¬ (3 : Int) < rbody.maxIterations)]
    intro hcontra
    exact absurd hcontra (by omega)
  rw [heq]
  obtain ⟨res, h1, h2, h3, h4⟩ :=
    repairCore_spec rbody oracles rbody.maxIterations hcode hdry
  exact ⟨res, h1, h2, by omega, h4⟩

/-- Witness for C9: `max_iterations = 2` with QA failing every iteration —
four QA calls, rollback invoked and recorded. -/
theorem repair_loop_bound_and_rollback_witness :
    ∃ res : RepairModel.RepairResultMap,
      (RepairModel.handleCodeRepairLoop policyA (some runA) true true (some approvalA) "r1"
        repairBodyA repairOraclesFailA).result = some res ∧
      (RepairModel.handleCodeRepairLoop policyA (some runA) true true (some approvalA) "r1"
        repairBodyA repairOraclesFailA).qaCalls = 2 * res.iterationsRun ∧
      (RepairModel.handleCodeRepairLoop policyA (some runA) true true (some approvalA) "r1"
        repairBodyA repairOraclesFailA).qaCalls ≤ 2 * (repairBodyA.maxIterations).toNat ∧
      (res.qaPassed = false →
        (RepairModel.handleCodeRepairLoop policyA (some runA) true true (some approvalA) "r1"
          repairBodyA repairOraclesFailA).rollbackInvoked = true ∧
        res.rollbackPlannedCommands = repairOraclesFailA.rollbackPlanned ∧
        res.rollbackError = repairOraclesFailA.rollbackErr ∧
        RepairModel.RepairDecision.failed res ∈
          (RepairModel.handleCodeRepairLoop policyA (some runA) true true (some approvalA) "r1"
            repairBodyA repairOraclesFailA).decisions) :=
  repair_loop_bound_and_rollback policyA runA "r1" repairBodyA approvalA repairOraclesFailA
    rfl (by decide) (by decide) (by decide) rfl rfl rfl rfl rfl

/-- C10: a successful dry-run `github.issues.create` stores an `ok` ToolCall
under the derived idempotency key — which does not include the `dry_run`
flag — so a later identical request with `dry_run=false` is answered by
replaying the stored dry-run response (whose `issue` is `null`): the state is
unchanged and the issue-creation collaborator is never invoked, so no real
issue is ever created under that key. -/
theorem dry_run_then_real_replays
    (mp : IssueModel.IdemPayload → Bytes) (mq : IssueModel.CreateIssueArgs → Bytes)
    (mr : IssueModel.IssueResponse → Bytes) (hash : Bytes → String)
    (st : IssueModel.ServerState) (runRepo runId title bodyStr : String) (labels : List String)
    (ghRes1 ghRes2 : Except ErrMapModel.GoErr IssueModel.Issue)
    (r1 p1 t1 r2 p2 t2 : String)
    (hval : IssueModel.ValidateIssueInput title bodyStr labels = none)
    (hlookup : IssueModel.GetSuccessfulToolCallByIdempotency st runId "github.issues.create"
      (IssueModel.MakeIssueIdempotencyKey mp hash runId "github.issues.create"
        title bodyStr labels none) = none) :
    ∃ (st1 : IssueModel.ServerState) (tc : IssueModel.ToolCallRow)
      (resp : IssueModel.IssueResponse),
      IssueModel.handleCreateIssue mp mq mr hash st true runRepo runId
        ⟨title, bodyStr, labels, true⟩ "" ghRes1 r1 p1 t1 = (st1, .fresh tc resp, false) ∧
      tc.status = "ok" ∧
      tc.idempotencyKey = some (IssueModel.MakeIssueIdempotencyKey mp hash runId
        "github.issues.create" title bodyStr labels none) ∧
      resp.issue = none ∧
      IssueModel.handleCreateIssue mp mq mr hash st1 true runRepo runId
        ⟨title, bodyStr, labels, false⟩ "" ghRes2 r2 p2 t2 = (st1, .replayed tc resp, false) := by
  have hkey : goTrimSpace "" = "" := rfl
  have h1 : IssueModel.handleCreateIssue mp mq mr hash st true runRepo runId
      ⟨title, bodyStr, labels, true⟩ "" ghRes1 r1 p1 t1
      = (⟨⟨t1, runId, "github.issues.create",
            some (IssueModel.MakeIssueIdempotencyKey mp hash runId "github.issues.create"
              title bodyStr labels none), "ok", some r1, some p1,
            hash (mq ⟨title, bodyStr, labels, true⟩ ++
              mr ⟨none, ⟨runRepo, title, bodyStr, labels⟩⟩)⟩ :: st.toolCalls,
          (p1, .resp ⟨none, ⟨runRepo, title, bodyStr, labels⟩⟩) ::
            (r1, .req ⟨title, bodyStr, labels, true⟩) :: st.artifacts⟩,
         .fresh ⟨t1, runId, "github.issues.create",
            some (IssueModel.MakeIssueIdempotencyKey mp hash runId "github.issues.create"
              title bodyStr labels none), "ok", some r1, some p1,
            hash (mq ⟨title, bodyStr, labels, true⟩ ++
              mr ⟨none, ⟨runRepo, title, bodyStr, labels⟩⟩)⟩
           ⟨none, ⟨runRepo, title, bodyStr, labels⟩⟩,
         false) := by
    simp only [IssueModel.handleCreateIssue, IssueModel.ReplayResponse, hval, hlookup, hkey,
      ne_eq, not_true, if_false, if_true, Option.isSome_none, Bool.false_eq_true, reduceIte]
  have lookup2 : IssueModel.GetSuccessfulToolCallByIdempotency
      ⟨(⟨t1, runId, "github.issues.create",
          some (IssueModel.MakeIssueIdempotencyKey mp hash runId "github.issues.create"
            title bodyStr labels none), "ok", some r1, some p1,
          hash (mq ⟨title, bodyStr, labels, true⟩ ++
            mr ⟨none, ⟨runRepo, title, bodyStr, labels⟩⟩)⟩ : IssueModel.ToolCallRow) :: st.toolCalls,
        (p1, .resp ⟨none, ⟨runRepo, title, bodyStr, labels⟩⟩) ::
          (r1, .req ⟨title, bodyStr, labels, true⟩) :: st.artifacts⟩
      runId "github.issues.create"
      (IssueModel.MakeIssueIdempotencyKey mp hash runId "github.issues.create"
        title bodyStr labels none)
      = some ⟨t1, runId, "github.issues.create",
          some (IssueModel.MakeIssueIdempotencyKey mp hash runId "github.issues.create"
            title bodyStr labels none), "ok", some r1, some p1,
          hash (mq ⟨title, bodyStr, labels, true⟩ ++
            mr ⟨none, ⟨runRepo, title, bodyStr, labels⟩⟩)⟩ := by
    unfold IssueModel.GetSuccessfulToolCallByIdempotency
    exact List.find?_cons_of_pos _ (by simp)
  have readA : IssueModel.readArtifact
      ⟨(⟨t1, runId, "github.issues.create",
          some (IssueModel.MakeIssueIdempotencyKey mp hash runId "github.issues.create"
            title bodyStr labels none), "ok", some r1, some p1,
          hash (mq ⟨title, bodyStr, labels, true⟩ ++
            mr ⟨none, ⟨runRepo, title, bodyStr, labels⟩⟩)⟩ : IssueModel.ToolCallRow) :: st.toolCalls,
        (p1, .resp ⟨none, ⟨runRepo, title, bodyStr, labels⟩⟩) ::
          (r1, .req ⟨title, bodyStr, labels, true⟩) :: st.artifacts⟩ p1
      = some (.resp ⟨none, ⟨runRepo, title, bodyStr, labels⟩⟩) := by
    simp [IssueModel.readArtifact]
  have h2 : IssueModel.handleCreateIssue mp mq mr hash
      ⟨(⟨t1, runId, "github.issues.create",
          some (IssueModel.MakeIssueIdempotencyKey mp hash runId "github.issues.create"
            title bodyStr labels none), "ok", some r1, some p1,
          hash (mq ⟨title, bodyStr, labels, true⟩ ++
            mr ⟨none, ⟨runRepo, title, bodyStr, labels⟩⟩)⟩ : IssueModel.ToolCallRow) :: st.toolCalls,
        (p1, .resp ⟨none, ⟨runRepo, title, bodyStr, labels⟩⟩) ::
          (r1, .req ⟨title, bodyStr, labels, true⟩) :: st.artifacts⟩
      true runRepo runId ⟨title, bodyStr, labels, false⟩ "" ghRes2 r2 p2 t2
      = (⟨(⟨t1, runId, "github.issues.create",
            some (IssueModel.MakeIssueIdempotencyKey mp hash runId "github.issues.create"
              title bodyStr labels none), "ok", some r1, some p1,
            hash (mq ⟨title, bodyStr, labels, true⟩ ++
              mr ⟨none, ⟨runRepo, title, bodyStr, labels⟩⟩)⟩ : IssueModel.ToolCallRow) :: st.toolCalls,
          (p1, .resp ⟨none, ⟨runRepo, title, bodyStr, labels⟩⟩) ::
            (r1, .req ⟨title, bodyStr, labels, true⟩) :: st.artifacts⟩,
         .replayed ⟨t1, runId, "github.issues.create",
            some (IssueModel.MakeIssueIdempotencyKey mp hash runId "github.issues.create"
              title bodyStr labels none), "ok", some r1, some p1,
            hash (mq ⟨title, bodyStr, labels, true⟩ ++
              mr ⟨none, ⟨runRepo, title, bodyStr, labels⟩⟩)⟩
           ⟨none, ⟨runRepo, title, bodyStr, labels⟩⟩,
         false) := by
    simp only [IssueModel.handleCreateIssue, IssueModel.ReplayResponse, hval, hkey,
      lookup2, readA, ne_eq, not_true, if_false, if_true, Option.isSome_none,
      Bool.false_eq_true, reduceIte]
  exact ⟨_, _, _, h1, rfl, rfl, rfl, h2⟩

/-- Witness for C10 on an empty state with a concrete issue. -/
theorem dry_run_then_real_replays_witness :
    ∃ (st1 : IssueModel.ServerState) (tc : IssueModel.ToolCallRow)
      (resp : IssueModel.IssueResponse),
      IssueModel.handleCreateIssue (fun _ => []) (fun _ => []) (fun _ => []) (fun _ => "k")
        ⟨[], []⟩ true "octo/demo" "r1" ⟨"t", "b", [], true⟩ ""
        (.ok ⟨1, "u"⟩) "ra" "pa" "ta" = (st1, .fresh tc resp, false) ∧
      tc.status = "ok" ∧
      tc.idempotencyKey = some (IssueModel.MakeIssueIdempotencyKey (fun _ => []) (fun _ => "k")
        "r1" "github.issues.create" "t" "b" [] none) ∧
      resp.issue = none ∧
      IssueModel.handleCreateIssue (fun _ => []) (fun _ => []) (fun _ => []) (fun _ => "k")
        st1 true "octo/demo" "r1" ⟨"t", "b", [], false⟩ ""
        (.ok ⟨2, "u2"⟩) "rb" "pb" "tb" = (st1, .replayed tc resp, false) :=
  dry_run_then_real_replays (fun _ => []) (fun _ => []) (fun _ => []) (fun _ => "k")
    ⟨[], []⟩ "octo/demo" "r1" "t" "b" [] (.ok ⟨1, "u"⟩) (.ok ⟨2, "u2"⟩)
    "ra" "pa" "ta" "rb" "pb" "tb" rfl rfl

/-- Witness for C3: a concrete successful `Record` on the empty state. -/
theorem record_evidence_law_witness :
    ∃ (st' : ArtifactModel.AuditState) (tc : ArtifactModel.ToolCallRow)
      (extraIds : List String),
      ArtifactModel.Record (fun _ => "H") "base" policyA ⟨⟨[], []⟩, []⟩ "t1" "q1" "p1" "r1"
        "github.issues.create" none [1] [2] false []
        ⟨⟨false, none, false⟩, ⟨false, none, false⟩, [], false⟩ = (st', some (tc, extraIds)) ∧
      tc.evidenceHash = (fun _ : Bytes => "H") ([1] ++ [2]) ∧
      ArtifactModel.readFile st'.store.files (ArtifactModel.savePath "base" "r1" "q1")
        = some [1] ∧
      ArtifactModel.readFile st'.store.files (ArtifactModel.savePath "base" "r1" "p1")
        = some [2] := by
  refine ⟨_, _, _, rfl, ?_⟩
  have h := record_evidence_law (fun _ => "H") "base" policyA ⟨⟨[], []⟩, []⟩ "t1" "q1" "p1" "r1"
    "github.issues.create" none [1] [2] false []
    ⟨⟨false, none, false⟩, ⟨false, none, false⟩, [], false⟩ _ _ _ rfl (by decide) (by simp)
  exact ⟨h.1, h.2.1, h.2.2.1⟩

/-- Witness for C4 at a concrete save (clean events, success case). -/
theorem save_atomicity_witness :
    SaveOutcomeInv (fun _ => "H") "base" ⟨[], []⟩ "a1" "r1" "req.json" "application/json"
      [7, 8] ⟨false, none, false⟩ :=
  save_atomicity (fun _ => "H") "base" ⟨[], []⟩ "a1" "r1" "req.json" "application/json"
    [7, 8] ⟨false, none, false⟩
